import Mathlib

/-!
Verification of the aggregation logic of the corndog retail-operations
dashboard (a TypeScript/React CRUD application).

The aggregators in the source all follow one pattern: iterate over an array
of facts, group rows in a JS `Map` keyed by a string, create a zero-initialised
summary row on first sight of a key, and accumulate numeric fields.  We embed
this pattern once (`Agg`, `applyItem`, `runAgg`: an association list in
insertion order, exactly the iteration order of a JS `Map`) and instantiate it
for each aggregator.

Modelling conventions:
- JS numbers are modelled as `ℚ` (the aggregations are plain field
  arithmetic; no floating-point rounding is at issue in the claims).
- Dates are modelled at day granularity as `Int` day numbers: the pages only
  ever compare dates through `startOfDay`/`endOfDay` bounds (inclusive whole
  days) or through the formatted `yyyy-MM-dd` string, so a day number carries
  exactly the information the code uses.  The `yyyy-MM-dd` string of a day is
  modelled as `toString day`.
- `string | null` fields are modelled as `Option String`; JS falsy tests on
  them are modelled as `Option.isNone` tests.
-/

namespace Corndog

/-- One group-by accumulation pass, the shape shared by every aggregator in
the source: `keyOf` returns the `Map` key for an item, or `none` when the item
is filtered out before touching the map; `init` is the zero row installed on
first sight of a key (`none` when the item may not create a row, e.g. when a
foreign key does not resolve); `upd` is the mutation applied to the row. -/
structure Agg (ι κ σ : Type) where
  keyOf : ι → Option κ
  init : ι → Option σ
  upd : ι → σ → σ

variable {ι κ σ : Type}

/-- Whether the association list already holds an entry with the given key
(`map.has(key)` in the source). -/
def hasKey [DecidableEq κ] (s : List (κ × σ)) (k : κ) : Bool :=
  s.any (fun e => e.1 = k)

/-- Process one item, as the loop bodies in the source do: skip it when it is
filtered out, otherwise update the row of its key, creating the row first when
absent (`if (!map.has(key)) map.set(key, init); update(map.get(key)!)`). -/
def applyItem [DecidableEq κ] (A : Agg ι κ σ) (s : List (κ × σ)) (i : ι) :
    List (κ × σ) :=
  match A.keyOf i with
  | none => s
  | some k =>
    if hasKey s k then
      s.map (fun e => if e.1 = k then (e.1, A.upd i e.2) else e)
    else
      match A.init i with
      | none => s
      | some v => s ++ [(k, A.upd i v)]

/-- Run an accumulation pass over a list of items. -/
def runAgg [DecidableEq κ] (A : Agg ι κ σ) (s : List (κ × σ)) (items : List ι) :
    List (κ × σ) :=
  items.foldl (applyItem A) s

/-- The total contribution of a list of items to the key `k`: the sum of
`c i` over exactly the items that the aggregator maps to `k`. -/
def keySum [DecidableEq κ] (A : Agg ι κ σ) (c : ι → ℚ) (k : κ) (items : List ι) : ℚ :=
  ((items.filter (fun i => A.keyOf i = some k)).map c).sum


/-! ### Data model (src/lib/types.ts) -/

/-- `District` row: `{id, name}` (src/lib/types.ts). -/
structure District where
  id : String
  name : String
deriving DecidableEq

/-- `Store` row: `{id, name, districtId (nullable)}` (src/lib/types.ts). -/
structure Store where
  id : String
  name : String
  districtId : Option String
deriving DecidableEq

/-- `Product` row (src/lib/types.ts). -/
structure Product where
  id : String
  name : String
  costPrice : ℚ
  salePrice : ℚ
deriving DecidableEq

/-- `Movement` row (src/lib/types.ts); `date` is the movement's day. -/
structure Movement where
  id : String
  date : Int
  districtId : String
  storeId : Option String
  productId : String
  operationType : String
  paymentType : String
  quantity : ℚ
  unitPrice : ℚ
deriving DecidableEq

/-- `StorePayment` row (src/lib/types.ts). -/
structure StorePayment where
  id : String
  date : Int
  districtId : Option String
  storeId : String
  amount : ℚ
  method : String
deriving DecidableEq

/-! ### Debt ledger aggregator (src/app/debts/page.tsx, `calculateDebts`) -/

/-- `StoreDebtSummary` (src/app/debts/page.tsx): one row per composite
`districtId-storeId` key. -/
structure StoreDebtSummary where
  id : String
  districtId : String
  storeId : String
  districtName : String
  storeName : String
  creditAmount : ℚ
  paymentsAmount : ℚ
  balance : ℚ
deriving DecidableEq

/-- The `checkDate` closure of `calculateDebts` (src/app/debts/page.tsx:73-78):
with both bounds, `isWithinInterval` (inclusive); with one bound, `≥` / `≤`;
with none, always true.  Bounds are already whole-day
(`startOfDay`/`endOfDay`) and dates are modelled at day granularity. -/
def checkDate (dateFrom dateTo : Option Int) (d : Int) : Bool :=
  match dateFrom, dateTo with
  | some f, some t => decide (f ≤ d ∧ d ≤ t)
  | some f, none => decide (f ≤ d)
  | none, some t => decide (d ≤ t)
  | none, none => true

/-- `sign` of a credit movement (src/app/debts/page.tsx:104):
`-1` for `return` (the store gave goods back), `+1` otherwise. -/
def debtSign (m : Movement) : ℚ :=
  if m.operationType = "return" then -1 else 1

/-- A credit movement's signed amount, `sign * quantity * unitPrice`
(src/app/debts/page.tsx:105). -/
def debtMovementContribution (m : Movement) : ℚ :=
  debtSign m * m.quantity * m.unitPrice

/-- The filter of the movement loop of `calculateDebts`
(src/app/debts/page.tsx:81-88): only `paymentType == "credit"` movements with
a `storeId`, matching the district/store filters and the date window,
reach the map; the key is `` `${m.districtId}-${m.storeId}` ``. -/
def debtMovementKeyOf (dateFrom dateTo : Option Int)
    (selectedDistrict selectedStore : String) (m : Movement) : Option String :=
  if m.paymentType ≠ "credit" then none
  else match m.storeId with
  | none => none
  | some sid =>
    if selectedDistrict ≠ "all" ∧ m.districtId ≠ selectedDistrict then none
    else if selectedStore ≠ "all" ∧ sid ≠ selectedStore then none
    else if ¬ checkDate dateFrom dateTo m.date then none
    else some (m.districtId ++ "-" ++ sid)

/-- The zero row installed on first sight of a key
(src/app/debts/page.tsx:90-101 and 128-139): names resolved by lookup with
"unknown" placeholders, all amounts zero. -/
def debtInitRow (stores : List Store) (districts : List District)
    (districtId sid : String) : StoreDebtSummary :=
  { id := districtId ++ "-" ++ sid
    districtId := districtId
    storeId := sid
    districtName :=
      ((districts.find? (fun d => d.id = districtId)).map District.name).getD
        "Неизвестный район"
    storeName :=
      ((stores.find? (fun s => s.id = sid)).map Store.name).getD
        "Неизвестный магазин"
    creditAmount := 0
    paymentsAmount := 0
    balance := 0 }

/-- The movement pass of `calculateDebts` (src/app/debts/page.tsx:81-110)
as an accumulation: each matching credit movement adds
`sign * quantity * unitPrice` to both `creditAmount` and `balance`. -/
def debtMovementAgg (stores : List Store) (districts : List District)
    (dateFrom dateTo : Option Int) (selectedDistrict selectedStore : String) :
    Agg Movement String StoreDebtSummary where
  keyOf := debtMovementKeyOf dateFrom dateTo selectedDistrict selectedStore
  init m :=
    match m.storeId with
    | none => none
    | some sid => some (debtInitRow stores districts m.districtId sid)
  upd m r :=
    { r with
      creditAmount := r.creditAmount + debtMovementContribution m
      balance := r.balance + debtMovementContribution m }

/-- `p.districtId ?? store?.districtId` (src/app/debts/page.tsx:115-117):
the payment's district, falling back to the district of the payment's store. -/
def paymentDistrictId (stores : List Store) (p : StorePayment) : Option String :=
  match p.districtId with
  | some d => some d
  | none => (stores.find? (fun s => s.id = p.storeId)).bind Store.districtId

/-- The filter of the payment loop of `calculateDebts`
(src/app/debts/page.tsx:113-124): skip when no district resolves, apply the
district/store filters and the date window; the key is
`` `${pDistrictId}-${p.storeId}` ``. -/
def debtPaymentKeyOf (stores : List Store) (dateFrom dateTo : Option Int)
    (selectedDistrict selectedStore : String) (p : StorePayment) : Option String :=
  match paymentDistrictId stores p with
  | none => none
  | some pd =>
    if selectedDistrict ≠ "all" ∧ pd ≠ selectedDistrict then none
    else if selectedStore ≠ "all" ∧ p.storeId ≠ selectedStore then none
    else if ¬ checkDate dateFrom dateTo p.date then none
    else some (pd ++ "-" ++ p.storeId)

/-- The payment pass of `calculateDebts` (src/app/debts/page.tsx:113-146):
each matching payment adds `amount` to `paymentsAmount` and subtracts it
from `balance`. -/
def debtPaymentAgg (stores : List Store) (districts : List District)
    (dateFrom dateTo : Option Int) (selectedDistrict selectedStore : String) :
    Agg StorePayment String StoreDebtSummary where
  keyOf := debtPaymentKeyOf stores dateFrom dateTo selectedDistrict selectedStore
  init p :=
    match paymentDistrictId stores p with
    | none => none
    | some pd => some (debtInitRow stores districts pd p.storeId)
  upd p r :=
    { r with
      paymentsAmount := r.paymentsAmount + p.amount
      balance := r.balance - p.amount }

/-- `calculateDebts` (src/app/debts/page.tsx:60-151): process the credit
movements, then the payments, then sort descending by `balance`
(`.sort((a, b) => b.balance - a.balance)`). -/
def calculateDebts (movements : List Movement) (payments : List StorePayment)
    (stores : List Store) (districts : List District)
    (dateFrom dateTo : Option Int)
    (selectedDistrict selectedStore : String) : List StoreDebtSummary :=
  let afterMovements :=
    runAgg (debtMovementAgg stores districts dateFrom dateTo selectedDistrict selectedStore)
      [] movements
  let afterPayments :=
    runAgg (debtPaymentAgg stores districts dateFrom dateTo selectedDistrict selectedStore)
      afterMovements payments
  (afterPayments.map Prod.snd).mergeSort (fun a b => b.balance ≤ a.balance)

/-! ### Concrete inputs for the debt-ledger examples (spec §8) -/

/-- Example district. -/
def exDistrict : District := { id := "d1", name := "District 1" }

/-- Example store in `exDistrict`. -/
def exStore : Store := { id := "s1", name := "Store 1", districtId := some "d1" }

/-- The spec's §8 example: a credit `sale` of qty 10 at unit price 100. -/
def exCreditSale : Movement :=
  { id := "m1", date := 0, districtId := "d1", storeId := some "s1"
    productId := "p1", operationType := "sale", paymentType := "credit"
    quantity := 10, unitPrice := 100 }

/-- The spec's §8 example: a payment of 400 against the same store. -/
def exPayment : StorePayment :=
  { id := "pay1", date := 0, districtId := some "d1", storeId := "s1"
    amount := 400, method := "cash" }

/-- The debt row the §8 example produces: credit 1000, payments 400,
balance 600. -/
def exDebtRow : StoreDebtSummary :=
  { id := "d1-s1", districtId := "d1", storeId := "s1"
    districtName := "District 1", storeName := "Store 1"
    creditAmount := 1000, paymentsAmount := 400, balance := 600 }

/-! ### Cost-free report variant (src/app/page.tsx:1222-1301, `calculateReportData`) -/

/-- `ReportRow` (src/app/page.tsx:1205-1219). -/
structure ReportRow where
  id : String
  name : String
  revenue : ℚ
  profit : ℚ
  salesQty : ℚ
  returnsQty : ℚ
  exchangesQty : ℚ
  bonusesQty : ℚ
  issueQty : ℚ
  returnRate : ℚ
  bonusShare : ℚ
  subLabel : Option String
deriving DecidableEq

/-- `revenuePart` (src/app/page.tsx:1241): `-quantity * unitPrice` for a
`return`, `+quantity * unitPrice` for every other operation type. -/
def reportRevenuePart (m : Movement) : ℚ :=
  if m.operationType = "return" then -(m.quantity * m.unitPrice)
  else m.quantity * m.unitPrice

/-- The quantity of `m` when its operation type is `op`, else 0. -/
def qtyIf (op : String) (m : Movement) : ℚ :=
  if m.operationType = op then m.quantity else 0

/-- `updateRow` (src/app/page.tsx:1240-1256): add `revenuePart` to revenue,
`revenuePart - costPart` (with `costPart = 0`) to profit, and tally
quantities per operation type (`issueQty` counts returns and exchanges). -/
def updateRow (m : Movement) (row : ReportRow) : ReportRow :=
  { row with
    revenue := row.revenue + reportRevenuePart m
    profit := row.profit + (reportRevenuePart m - 0)
    salesQty := row.salesQty + qtyIf "sale" m
    returnsQty := row.returnsQty + qtyIf "return" m
    exchangesQty := row.exchangesQty + qtyIf "exchange" m
    bonusesQty := row.bonusesQty + qtyIf "bonus" m
    issueQty := row.issueQty +
      (if m.operationType = "return" ∨ m.operationType = "exchange" then m.quantity else 0) }

/-- `finalizeRow` (src/app/page.tsx:1258-1264): derive `returnRate` and
`bonusShare` when there were sales. -/
def finalizeRow (row : ReportRow) : ReportRow :=
  if row.salesQty > 0 then
    { row with
      returnRate := row.issueQty / row.salesQty * 100
      bonusShare := row.bonusesQty / row.salesQty * 100 }
  else row

/-- The district map of `calculateReportData` (src/app/page.tsx:1269-1280):
keyed by `districtId`, name resolved with an "unknown" placeholder. -/
def reportDistrictAgg (districts : List District) : Agg Movement String ReportRow where
  keyOf m := some m.districtId
  init m := some
    { id := m.districtId
      name := ((districts.find? (fun d => d.id = m.districtId)).map District.name).getD
        "Неизвестный район"
      revenue := 0, profit := 0, salesQty := 0, returnsQty := 0, exchangesQty := 0
      bonusesQty := 0, issueQty := 0, returnRate := 0, bonusShare := 0
      subLabel := none }
  upd := updateRow

/-- `const storeIdKey = m.storeId || "unknown"` (src/app/page.tsx:1282). -/
def storeIdKey (m : Movement) : String := m.storeId.getD "unknown"

/-- `stores.find(x => x.id === m.storeId)` — never matches when `storeId`
is null. -/
def storeOfMovement (stores : List Store) (m : Movement) : Option Store :=
  match m.storeId with
  | none => none
  | some sid => stores.find? (fun s => s.id = sid)

/-- The store map of `calculateReportData` (src/app/page.tsx:1282-1296):
keyed by `` `${m.districtId}-${storeIdKey}` ``. -/
def reportStoreAgg (districts : List District) (stores : List Store) :
    Agg Movement String ReportRow where
  keyOf m := some (m.districtId ++ "-" ++ storeIdKey m)
  init m := some
    { id := m.districtId ++ "-" ++ storeIdKey m
      name := ((storeOfMovement stores m).map Store.name).getD "По району (без магазина)"
      revenue := 0, profit := 0, salesQty := 0, returnsQty := 0, exchangesQty := 0
      bonusesQty := 0, issueQty := 0, returnRate := 0, bonusShare := 0
      subLabel := some (((districts.find? (fun d => d.id = m.districtId)).map District.name).getD "N/A") }
  upd := updateRow

/-- The result of `calculateReportData`: `{ districtRows, storeRows }`. -/
structure ReportData where
  districtRows : List ReportRow
  storeRows : List ReportRow
deriving DecidableEq

/-- `calculateReportData` (src/app/page.tsx:1222-1301): filter movements to
the date window (same inclusive rules as `checkDate`), group into the
district and store maps, finalize each row, and sort both row lists by
`profit` descending. -/
def calculateReportData (movements : List Movement) (districts : List District)
    (stores : List Store) (dateFrom dateTo : Option Int) : ReportData :=
  let filtered := movements.filter (fun m => checkDate dateFrom dateTo m.date)
  let districtRows :=
    (((runAgg (reportDistrictAgg districts) [] filtered).map Prod.snd).map finalizeRow).mergeSort
      (fun a b => b.profit ≤ a.profit)
  let storeRows :=
    (((runAgg (reportStoreAgg districts stores) [] filtered).map Prod.snd).map finalizeRow).mergeSort
      (fun a b => b.profit ≤ a.profit)
  { districtRows := districtRows, storeRows := storeRows }

/-- An `exchange` movement of qty 1 at unit price 100 (for the report
variant's revenue rule). -/
def exExchange : Movement :=
  { id := "m2", date := 0, districtId := "d1", storeId := some "s1"
    productId := "p1", operationType := "exchange", paymentType := "cash"
    quantity := 1, unitPrice := 100 }

/-- The district row `calculateReportData` produces for `exExchange` alone:
the exchange contributes `+1*100` to revenue (and profit), not zero. -/
def exReportRow : ReportRow :=
  { id := "d1", name := "Неизвестный район", revenue := 100, profit := 100
    salesQty := 0, returnsQty := 0, exchangesQty := 1, bonusesQty := 0
    issueQty := 1, returnRate := 0, bonusShare := 0, subLabel := none }

/-! ### Movements API, stricter POST variant (src/app/api/movements/route.ts) -/

/-- `ProductionBatch` (src/unnamed/part_003:36-44 / production_batches table);
`date` is the batch's day. -/
structure ProductionBatch where
  id : String
  date : Int
  productId : String
  producedQty : ℚ
  bonusPoolQty : ℚ
deriving DecidableEq

/-- The POST body of `/api/movements` (src/app/api/movements/route.ts:83-101);
absent/null JSON fields are `none` (a JS falsy string or missing field is
modelled as `none`, a falsy number as 0). -/
structure MovementRequest where
  date : Option Int
  districtId : Option String
  storeId : Option String
  productId : Option String
  operationType : Option String
  paymentType : Option String
  quantity : ℚ
  unitPrice : Option ℚ
  comment : Option String
deriving DecidableEq

/-- A `movements` table row as the INSERT writes it
(src/app/api/movements/route.ts:176-195). -/
structure MovementRow where
  date : Int
  districtId : String
  storeId : Option String
  productId : String
  operationType : String
  paymentType : String
  quantity : ℚ
  unitPrice : ℚ
  comment : Option String
deriving DecidableEq

/-- The database state the movements POST handler reads and writes. -/
structure MovementsDb where
  movements : List MovementRow
  batches : List ProductionBatch
deriving DecidableEq

/-- `CONSUME_TYPES` (src/app/api/movements/route.ts:20): the operation types
that consume the day's production. -/
def CONSUME_TYPES : List String := ["sale", "exchange", "bonus", "writeoff"]

/-- `SELECT COALESCE(SUM(produced_qty), 0) FROM production_batches WHERE
date = $date AND product_id = $productId`
(src/app/api/movements/route.ts:131-137). -/
def totalProducedFor (db : MovementsDb) (date : Int) (productId : String) : ℚ :=
  ((db.batches.filter (fun b => b.date = date ∧ b.productId = productId)).map
    ProductionBatch.producedQty).sum

/-- `SELECT COALESCE(SUM(quantity), 0) FROM movements WHERE date = $date AND
product_id = $productId AND operation_type IN ('sale','exchange','bonus',
'writeoff')` (src/app/api/movements/route.ts:152-158). -/
def usedBefore (db : MovementsDb) (date : Int) (productId : String) : ℚ :=
  ((db.movements.filter (fun m =>
      m.date = date ∧ m.productId = productId ∧ m.operationType ∈ CONSUME_TYPES)).map
    MovementRow.quantity).sum

/-- The handler's response: a 400 `{error}` or a 201 with the inserted row. -/
inductive PostResult where
  | badRequest (msg : String)
  | created (row : MovementRow)
deriving DecidableEq

/-- The row the INSERT builds from a validated request
(src/app/api/movements/route.ts:176-195); the `getD` defaults never fire for
a request that passed validation, and `paymentType ?? "cash"` is the
`normalizedPayment` of line 125. -/
def mkMovementRow (req : MovementRequest) : MovementRow :=
  { date := req.date.getD 0
    districtId := req.districtId.getD ""
    storeId := req.storeId
    productId := req.productId.getD ""
    operationType := req.operationType.getD ""
    paymentType := req.paymentType.getD "cash"
    quantity := req.quantity
    unitPrice := req.unitPrice.getD 0
    comment := req.comment }

/-- `POST /api/movements`, the stricter variant
(src/app/api/movements/route.ts:80-199): validate required fields and
`quantity > 0`; for a consuming operation, reject with 400 when the day has
no production for the product or when `usedBefore + quantity` would exceed
`totalProduced`; otherwise insert the movement and return it with 201. -/
def movementsPost (db : MovementsDb) (req : MovementRequest) :
    PostResult × MovementsDb :=
  if req.date.isNone ∨ req.districtId.isNone ∨ req.productId.isNone ∨
      req.operationType.isNone ∨ req.quantity = 0 ∨ req.unitPrice.isNone then
    (.badRequest "Missing required fields", db)
  else if req.quantity ≤ 0 then
    (.badRequest "Количество должно быть больше нуля", db)
  else if req.operationType.getD "" ∈ CONSUME_TYPES then
    if totalProducedFor db (req.date.getD 0) (req.productId.getD "") ≤ 0 then
      (.badRequest "На эту дату нет производства по этому товару. Сначала добавьте производство на странице «Производство».", db)
    else if usedBefore db (req.date.getD 0) (req.productId.getD "") + req.quantity >
        totalProducedFor db (req.date.getD 0) (req.productId.getD "") then
      (.badRequest "Недостаточно произведено на эту дату для этого товара. Проверьте количество.", db)
    else
      (.created (mkMovementRow req),
        { db with movements := db.movements ++ [mkMovementRow req] })
  else
    (.created (mkMovementRow req),
      { db with movements := db.movements ++ [mkMovementRow req] })

/-- Example production batch: 100 units of "p1" produced on day 5. -/
def exBatch : ProductionBatch :=
  { id := "b1", date := 5, productId := "p1", producedQty := 100, bonusPoolQty := 0 }

/-- Example recorded movement: 60 units of "p1" already sold on day 5. -/
def exConsumedRow : MovementRow :=
  { date := 5, districtId := "d1", storeId := some "s1", productId := "p1"
    operationType := "sale", paymentType := "cash", quantity := 60
    unitPrice := 100, comment := none }

/-- Example database: one batch of 100, 60 already consumed. -/
def exMovementsDb : MovementsDb :=
  { movements := [exConsumedRow], batches := [exBatch] }

/-- Example request: a further sale of 50 units of "p1" on day 5 — it would
push consumption to 110 > 100. -/
def exCapRequest : MovementRequest :=
  { date := some 5, districtId := some "d1", storeId := some "s1"
    productId := some "p1", operationType := some "sale"
    paymentType := some "cash", quantity := 50, unitPrice := some 100
    comment := none }

/-! ### Production reconciliation (src/unnamed/part_003, `calculateProductionSummary`) -/

/-- `ProductionSummaryRow` (src/unnamed/part_003:46-59); `date` is the row's
day (the source keeps the `yyyy-MM-dd` string). -/
structure ProductionSummaryRow where
  id : String
  date : Int
  productId : String
  productName : String
  producedQty : ℚ
  bonusPoolQty : ℚ
  salesQty : ℚ
  bonusQty : ℚ
  returnsQty : ℚ
  exchangesQty : ℚ
  netOutflowQty : ℚ
  theoreticalRestQty : ℚ
deriving DecidableEq

/-- The composite key `` `${date}-${productId}` `` (src/unnamed/part_003:86
and 113): the day's `yyyy-MM-dd` string is modelled as `toString day`. -/
def productionKey (date : Int) (productId : String) : String :=
  toString date ++ "-" ++ productId

/-- The seeding pass over the filtered batches
(src/unnamed/part_003:85-106): one row per `(date, productId)` key, summing
`producedQty` and `bonusPoolQty` across batches sharing the key. -/
def productionBatchAgg (products : List Product) :
    Agg ProductionBatch String ProductionSummaryRow where
  keyOf b := some (productionKey b.date b.productId)
  init b := some
    { id := productionKey b.date b.productId
      date := b.date
      productId := b.productId
      productName := ((products.find? (fun p => p.id = b.productId)).map Product.name).getD
        "Неизвестный продукт"
      producedQty := 0, bonusPoolQty := 0, salesQty := 0, bonusQty := 0
      returnsQty := 0, exchangesQty := 0, netOutflowQty := 0, theoreticalRestQty := 0 }
  upd b row :=
    { row with
      producedQty := row.producedQty + b.producedQty
      bonusPoolQty := row.bonusPoolQty + b.bonusPoolQty }

/-- The movement pass (src/unnamed/part_003:108-125): a movement only updates
an existing `(date, productId)` row (`init` is `none`: a movement never
creates a row), tallying quantities by operation type. -/
def productionMovementAgg : Agg Movement String ProductionSummaryRow where
  keyOf m := some (productionKey m.date m.productId)
  init _ := none
  upd m row :=
    { row with
      salesQty := row.salesQty + qtyIf "sale" m
      bonusQty := row.bonusQty + qtyIf "bonus" m
      returnsQty := row.returnsQty + qtyIf "return" m
      exchangesQty := row.exchangesQty + qtyIf "exchange" m }

/-- The final map (src/unnamed/part_003:127-136): derive
`netOutflowQty = sales + bonus + exchanges - returns` and
`theoreticalRestQty = producedQty - netOutflowQty`. -/
def finalizeProductionRow (row : ProductionSummaryRow) : ProductionSummaryRow :=
  let totalOut := row.salesQty + row.bonusQty + row.exchangesQty
  let netOut := totalOut - row.returnsQty
  { row with
    netOutflowQty := netOut
    theoreticalRestQty := row.producedQty - netOut }

/-- The sort order (src/unnamed/part_003:137-140): date descending (the
source compares the `yyyy-MM-dd` strings, which orders fixed-width dates
chronologically), then product name ascending. -/
def productionRowLE (a b : ProductionSummaryRow) : Bool :=
  if a.date = b.date then decide (a.productName ≤ b.productName)
  else decide (b.date < a.date)

/-- `calculateProductionSummary` (src/unnamed/part_003:63-141): filter the
batches to the date window, return `[]` when none remain, seed one row per
`(date, productId)`, tally the movements that match an existing key, then
finalize and sort. -/
def calculateProductionSummary (batches : List ProductionBatch)
    (movements : List Movement) (products : List Product)
    (dateFrom dateTo : Option Int) : List ProductionSummaryRow :=
  let filteredBatches := batches.filter (fun b => checkDate dateFrom dateTo b.date)
  if filteredBatches.isEmpty then []
  else
    let seeded := runAgg (productionBatchAgg products) [] filteredBatches
    let afterMovements := runAgg productionMovementAgg seeded movements
    ((afterMovements.map Prod.snd).map finalizeProductionRow).mergeSort productionRowLE

/-- Example product for the reconciliation example. -/
def exProduct : Product :=
  { id := "p1", name := "Product 1", costPrice := 50, salePrice := 100 }

/-- Spec §8 example batch: 100 produced on day 0. -/
def exPSBatch : ProductionBatch :=
  { id := "b0", date := 0, productId := "p1", producedQty := 100, bonusPoolQty := 0 }

/-- Spec §8 example movements: sale 60, return 10, bonus 5, all day 0. -/
def exPSSale : Movement :=
  { id := "s", date := 0, districtId := "d1", storeId := some "s1", productId := "p1"
    operationType := "sale", paymentType := "cash", quantity := 60, unitPrice := 100 }

/-- Return of 10 on day 0 (reconciliation example). -/
def exPSReturn : Movement :=
  { id := "r", date := 0, districtId := "d1", storeId := some "s1", productId := "p1"
    operationType := "return", paymentType := "cash", quantity := 10, unitPrice := 100 }

/-- Bonus of 5 on day 0 (reconciliation example). -/
def exPSBonus : Movement :=
  { id := "b", date := 0, districtId := "d1", storeId := some "s1", productId := "p1"
    operationType := "bonus", paymentType := "cash", quantity := 5, unitPrice := 0 }

/-- The reconciliation row of the §8 example: netOutflow 60+5-10 = 55,
theoretical rest 100-55 = 45. -/
def exPSRow : ProductionSummaryRow :=
  { id := "0-p1", date := 0, productId := "p1", productName := "Product 1"
    producedQty := 100, bonusPoolQty := 0, salesQty := 60, bonusQty := 5
    returnsQty := 10, exchangesQty := 0, netOutflowQty := 55, theoreticalRestQty := 45 }

/-- A movement on a day with no production batch (day 7): the aggregator
must drop it silently. -/
def exOrphanMovement : Movement :=
  { id := "o", date := 7, districtId := "d1", storeId := some "s1", productId := "p1"
    operationType := "sale", paymentType := "cash", quantity := 3, unitPrice := 100 }

/-! ### Stock balance aggregator (src/app/stock/page.tsx) -/

/-- `StockRow` (src/app/stock/page.tsx:35-44). -/
structure StockRow where
  id : String
  storeId : String
  storeName : String
  productId : String
  productName : String
  totalIn : ℚ
  totalOut : ℚ
  balance : ℚ
deriving DecidableEq

/-- `getMovementSign` (src/app/stock/page.tsx:48-63): the fixed sign table
`+1` for load/return/transfer_in, `-1` for
sale/bonus/exchange/writeoff/transfer_out, `0` for anything else. -/
def getMovementSign (op : String) : Int :=
  if op = "load" ∨ op = "return" ∨ op = "transfer_in" then 1
  else if op = "sale" ∨ op = "bonus" ∨ op = "exchange" ∨ op = "writeoff" ∨
      op = "transfer_out" then -1
  else 0

/-- The filter of `calculateStockData`'s loop
(src/app/stock/page.tsx:76-87): keep movements up to the end-of-day cutoff
(`isBefore(cutoff, mDate) && !isEqual` dropped ⟺ `mDate ≤ cutoff` at day
granularity), apply the store filter, require a `storeId`, and drop
operation types of sign 0; the key is `` `${m.storeId}-${m.productId}` ``. -/
def stockKeyOf (reportDate : Int) (selectedStoreId : String) (m : Movement) :
    Option String :=
  if ¬ (m.date ≤ reportDate) then none
  else if selectedStoreId ≠ "all" ∧ m.storeId ≠ some selectedStoreId then none
  else match m.storeId with
    | none => none
    | some sid =>
      if getMovementSign m.operationType = 0 then none
      else some (sid ++ "-" ++ m.productId)

/-- The quantity a movement adds to `totalIn` (its quantity when its sign is
positive, else 0). -/
def stockInContribution (m : Movement) : ℚ :=
  if getMovementSign m.operationType > 0 then m.quantity else 0

/-- The quantity a movement adds to `totalOut` (its quantity when its sign
is not positive, else 0). -/
def stockOutContribution (m : Movement) : ℚ :=
  if getMovementSign m.operationType > 0 then 0 else m.quantity

/-- The signed quantity `sign * quantity` a movement adds to `balance`. -/
def stockSignedContribution (m : Movement) : ℚ :=
  (getMovementSign m.operationType : ℚ) * m.quantity

/-- The map pass of `calculateStockData` (src/app/stock/page.tsx:76-114):
a row is created only when both the store and the product id resolve
(src/app/stock/page.tsx:89-103), and each movement adds its quantity to
`totalIn` or `totalOut` by sign and `sign * quantity` to `balance`. -/
def stockAgg (stores : List Store) (products : List Product)
    (reportDate : Int) (selectedStoreId : String) : Agg Movement String StockRow where
  keyOf := stockKeyOf reportDate selectedStoreId
  init m :=
    match m.storeId with
    | none => none
    | some sid =>
      match stores.find? (fun s => s.id = sid),
          products.find? (fun p => p.id = m.productId) with
      | some store, some product =>
        some { id := sid ++ "-" ++ m.productId, storeId := sid
               storeName := store.name, productId := m.productId
               productName := product.name, totalIn := 0, totalOut := 0, balance := 0 }
      | _, _ => none
  upd m row :=
    if getMovementSign m.operationType > 0 then
      { row with
        totalIn := row.totalIn + m.quantity
        balance := row.balance + (getMovementSign m.operationType : ℚ) * m.quantity }
    else
      { row with
        totalOut := row.totalOut + m.quantity
        balance := row.balance + (getMovementSign m.operationType : ℚ) * m.quantity }

/-- The sort order of `calculateStockData` (src/app/stock/page.tsx:117-123):
store name, then product name. -/
def stockRowLE (a b : StockRow) : Bool :=
  if a.storeName = b.storeName then decide (a.productName ≤ b.productName)
  else decide (a.storeName < b.storeName)

/-- `calculateStockData` (src/app/stock/page.tsx:65-123): empty input gives
`[]` (the page also returns `[]` when no report date is chosen; the cutoff
is always present here), otherwise accumulate per `(storeId, productId)` and
sort by store name then product name. -/
def calculateStockData (movements : List Movement) (stores : List Store)
    (products : List Product) (reportDate : Int) (selectedStoreId : String) :
    List StockRow :=
  if movements.isEmpty then []
  else
    ((runAgg (stockAgg stores products reportDate selectedStoreId) [] movements).map
      Prod.snd).mergeSort stockRowLE

/-- Spec §8 stock example: a `load` of 50 on day 0. -/
def exLoad : Movement :=
  { id := "l", date := 0, districtId := "d1", storeId := some "s1", productId := "p1"
    operationType := "load", paymentType := "cash", quantity := 50, unitPrice := 0 }

/-- Spec §8 stock example: a `sale` of 20 on day 0. -/
def exSale20 : Movement :=
  { id := "s20", date := 0, districtId := "d1", storeId := some "s1", productId := "p1"
    operationType := "sale", paymentType := "cash", quantity := 20, unitPrice := 100 }

/-- The stock row of the §8 example: totalIn 50, totalOut 20, balance 30. -/
def exStockRow : StockRow :=
  { id := "s1-p1", storeId := "s1", storeName := "Store 1", productId := "p1"
    productName := "Product 1", totalIn := 50, totalOut := 20, balance := 30 }

/-! ### District deletion (src/app/api/districts/[id]/route.ts, src/unnamed/part_004,
and the districts page's `deleteDistrict`, src/unnamed/part_001:127-143) -/

/-- The reference tables the district routes read and write. -/
structure RefDb where
  districts : List District
  stores : List Store
deriving DecidableEq

/-- `DELETE /api/districts/:id` (src/app/api/districts/[id]/route.ts:45-63;
the variants at lines 108-125 and src/unnamed/part_004:46-60 differ only in
their 404 handling): the handler runs `DELETE FROM districts WHERE id = $id`
and nothing else — no statement touches the stores table. -/
def districtsDelete (db : RefDb) (id : String) : RefDb :=
  { db with districts := db.districts.filter (fun d => ¬ d.id = id) }

/-- The client-side `deleteDistrict` follow-up (src/unnamed/part_001:136-142,
src/unnamed/part_002:135-138): after a successful DELETE the page maps its
local store state, nulling `districtId` for the stores of the deleted
district. -/
def unassignDeletedDistrict (stores : List Store) (id : String) : List Store :=
  stores.map (fun s => if s.districtId = some id then { s with districtId := none } else s)

/-- Example database for district deletion: one district and one store
assigned to it. -/
def exRefDb : RefDb :=
  { districts := [exDistrict], stores := [exStore] }

/-! ### Demand forecast trend factor (src/unnamed/part_005:184-206,
inside `calculateSmartForecast`) -/

/-- `part.reduce(...) / part.length` guarded by `part.length > 0`
(src/unnamed/part_005:188-195). -/
def averageOf (l : List ℚ) : ℚ :=
  if 0 < l.length then l.sum / l.length else 0

/-- `const half = Math.floor(horizonDays / 2) || 1`
(src/unnamed/part_005:185). -/
def trendHalf (horizonDays : ℕ) : ℕ :=
  if horizonDays / 2 = 0 then 1 else horizonDays / 2

/-- `salesHistory.slice(0, half)` (src/unnamed/part_005:186). -/
def trendFirstPart (salesHistory : List ℚ) (horizonDays : ℕ) : List ℚ :=
  salesHistory.take (trendHalf horizonDays)

/-- `salesHistory.slice(-half)` (src/unnamed/part_005:187): the last `half`
elements (`List.drop (length - half)` is the whole list when
`half ≥ length`, exactly as `slice(-half)`). -/
def trendLastPart (salesHistory : List ℚ) (horizonDays : ℕ) : List ℚ :=
  salesHistory.drop (salesHistory.length - trendHalf horizonDays)

/-- `Math.min(Math.max(trendFactor, 0.7), 1.5)` (src/unnamed/part_005:206). -/
def clampTrend (x : ℚ) : ℚ :=
  min (max x 0.7) 1.5

/-- The trend factor of `calculateSmartForecast`
(src/unnamed/part_005:197-206): `lastAvg / firstAvg` when the first half had
sales, a flat 1.2 when only the second half had sales, 1 when neither did —
then clamped to `[0.7, 1.5]`. -/
def trendFactor (salesHistory : List ℚ) (horizonDays : ℕ) : ℚ :=
  let firstAvg := averageOf (trendFirstPart salesHistory horizonDays)
  let lastAvg := averageOf (trendLastPart salesHistory horizonDays)
  clampTrend (if 0 < firstAvg then lastAvg / firstAvg
    else if 0 < lastAvg then 1.2 else 1)

/-! ### Store-level anomaly detection (src/lib/anomalies.ts, `detectAnomalies`) -/

/-- `AlertType` (src/lib/anomalies.ts:3). -/
inductive AlertType where
  | returns
  | bonuses
  | exchanges
deriving DecidableEq

/-- `StoreAlert` (src/lib/anomalies.ts:5-10); the reported percent is the
rounded integer. -/
structure StoreAlert where
  storeId : String
  storeName : String
  type : AlertType
  percent : ℤ
deriving DecidableEq

/-- The per-store tallies of `byStore` (src/lib/anomalies.ts:27). -/
structure StoreStats where
  sales : ℚ
  returns : ℚ
  bonuses : ℚ
  exchanges : ℚ
deriving DecidableEq

/-- The `byStore` accumulation (src/lib/anomalies.ts:29-40): movements
without a `storeId` are skipped; quantities tally by operation type. -/
def anomalyStatsAgg : Agg Movement String StoreStats where
  keyOf m := m.storeId
  init _ := some { sales := 0, returns := 0, bonuses := 0, exchanges := 0 }
  upd m e :=
    { sales := e.sales + qtyIf "sale" m
      returns := e.returns + qtyIf "return" m
      bonuses := e.bonuses + qtyIf "bonus" m
      exchanges := e.exchanges + qtyIf "exchange" m }

/-- The threshold of each alert type (src/lib/anomalies.ts:57-59):
returns > 10, bonuses > 5, exchanges > 10 (percent). -/
def alertThreshold : AlertType → ℚ
  | .returns => 10
  | .bonuses => 5
  | .exchanges => 10

/-- The tally an alert type is measured on. -/
def alertCount : AlertType → StoreStats → ℚ
  | .returns, st => st.returns
  | .bonuses, st => st.bonuses
  | .exchanges, st => st.exchanges

/-- The alert `addAlert` pushes (src/lib/anomalies.ts:45-55): the percent is
`Math.round(count / sales * 100)`. -/
def mkAlert (k : String) (store : Store) (t : AlertType) (st : StoreStats) : StoreAlert :=
  { storeId := k, storeName := store.name, type := t
    percent := round (alertCount t st / st.sales * 100) }

/-- The per-entry alert emission (src/lib/anomalies.ts:42-60): skip when the
store does not resolve or had no sales; otherwise one alert per threshold
strictly exceeded, in the order returns, bonuses, exchanges. -/
def addAlerts (stores : List Store) (k : String) (st : StoreStats) : List StoreAlert :=
  match stores.find? (fun s => s.id = k) with
  | none => []
  | some store =>
    if st.sales = 0 then []
    else
      (if st.returns / st.sales * 100 > 10 then [mkAlert k store .returns st] else []) ++
      (if st.bonuses / st.sales * 100 > 5 then [mkAlert k store .bonuses st] else []) ++
      (if st.exchanges / st.sales * 100 > 10 then [mkAlert k store .exchanges st] else [])

/-- `detectAnomalies` (src/lib/anomalies.ts:22-63): tally per store, then
emit the alerts of each store entry in map order. -/
def detectAnomalies (movements : List Movement) (stores : List Store) : List StoreAlert :=
  (runAgg anomalyStatsAgg [] movements).flatMap (fun e => addAlerts stores e.1 e.2)

/-- The total `sale` quantity `byStore` tallies for a store id. -/
def anomalySales (movements : List Movement) (sid : String) : ℚ :=
  keySum anomalyStatsAgg (qtyIf "sale") sid movements

/-- The operation type each alert type counts. -/
def anomalyTypeOp : AlertType → String
  | .returns => "return"
  | .bonuses => "bonus"
  | .exchanges => "exchange"

/-- The tally `byStore` accumulates for a store id and alert type. -/
def anomalyCount (movements : List Movement) (sid : String) (t : AlertType) : ℚ :=
  keySum anomalyStatsAgg (qtyIf (anomalyTypeOp t)) sid movements

/-- Anomaly example: 100 units sold at store "s1". -/
def exAnomSale : Movement :=
  { id := "as", date := 0, districtId := "d1", storeId := some "s1", productId := "p1"
    operationType := "sale", paymentType := "cash", quantity := 100, unitPrice := 100 }

/-- Anomaly example: 11 units returned (11% > 10%, flagged). -/
def exReturn11 : Movement :=
  { id := "r11", date := 0, districtId := "d1", storeId := some "s1", productId := "p1"
    operationType := "return", paymentType := "cash", quantity := 11, unitPrice := 100 }

/-- Anomaly example: 10 units returned (10% is not > 10%, not flagged). -/
def exReturn10 : Movement :=
  { id := "r10", date := 0, districtId := "d1", storeId := some "s1", productId := "p1"
    operationType := "return", paymentType := "cash", quantity := 10, unitPrice := 100 }

-- ===== END OF DEFINITIONS =====

theorem keySum_nil [DecidableEq κ] (A : Agg ι κ σ) (c : ι → ℚ) (k : κ) :
    keySum A c k [] = 0 := rfl

theorem keySum_cons [DecidableEq κ] (A : Agg ι κ σ) (c : ι → ℚ) (k : κ)
    (i : ι) (items : List ι) :
    keySum A c k (i :: items) =
      (if A.keyOf i = some k then c i else 0) + keySum A c k items := by
  simp only [keySum, List.filter_cons]
  split <;> simp_all [List.sum_cons]

theorem applyItem_keyOf_none [DecidableEq κ] (A : Agg ι κ σ) (s : List (κ × σ))
    {i : ι} (h : A.keyOf i = none) : applyItem A s i = s := by
  unfold applyItem; rw [h]

theorem applyItem_present [DecidableEq κ] (A : Agg ι κ σ) (s : List (κ × σ))
    {i : ι} {k : κ} (h : A.keyOf i = some k) (hk : hasKey s k = true) :
    applyItem A s i = s.map (fun e => if e.1 = k then (e.1, A.upd i e.2) else e) := by
  unfold applyItem; rw [h]; simp [hk]

theorem applyItem_absent_skip [DecidableEq κ] (A : Agg ι κ σ) (s : List (κ × σ))
    {i : ι} {k : κ} (h : A.keyOf i = some k) (hk : hasKey s k = false)
    (hi : A.init i = none) : applyItem A s i = s := by
  unfold applyItem; rw [h]; simp [hk, hi]

theorem applyItem_absent_create [DecidableEq κ] (A : Agg ι κ σ) (s : List (κ × σ))
    {i : ι} {k : κ} {v : σ} (h : A.keyOf i = some k) (hk : hasKey s k = false)
    (hi : A.init i = some v) : applyItem A s i = s ++ [(k, A.upd i v)] := by
  unfold applyItem; rw [h]; simp [hk, hi]

theorem hasKey_map_upd [DecidableEq κ] (A : Agg ι κ σ) (s : List (κ × σ))
    (i : ι) (k₀ k : κ) :
    hasKey (s.map (fun e => if e.1 = k₀ then (e.1, A.upd i e.2) else e)) k
      = hasKey s k := by
  have hfst : ∀ e : κ × σ,
      (if e.1 = k₀ then (e.1, A.upd i e.2) else e).1 = e.1 := by
    intro e; split <;> rfl
  simp only [hasKey, List.any_map, Function.comp_def]
  simp only [hfst]

theorem hasKey_applyItem [DecidableEq κ] (A : Agg ι κ σ) (s : List (κ × σ))
    (i : ι) (k : κ) :
    hasKey (applyItem A s i) k
      = (hasKey s k || (decide (A.keyOf i = some k) && (A.init i).isSome)) := by
  cases hko : A.keyOf i with
  | none => rw [applyItem_keyOf_none A s hko]; simp
  | some k₀ =>
    cases hks : hasKey s k₀ with
    | true =>
      rw [applyItem_present A s hko hks, hasKey_map_upd]
      by_cases hkk : k₀ = k
      · subst hkk; simp [hks]
      · simp [Option.some_inj, hkk]
    | false =>
      cases hin : A.init i with
      | none =>
        rw [applyItem_absent_skip A s hko hks hin]
        simp
      | some v =>
        rw [applyItem_absent_create A s hko hks hin]
        by_cases hkk : k₀ = k
        · subst hkk; simp [hasKey, Option.some_inj]
        · simp [hasKey, Option.some_inj, hkk]

theorem runAgg_cons [DecidableEq κ] (A : Agg ι κ σ) (s : List (κ × σ))
    (i : ι) (items : List ι) :
    runAgg A s (i :: items) = runAgg A (applyItem A s i) items := rfl

theorem hasKey_runAgg [DecidableEq κ] (A : Agg ι κ σ) (items : List ι) :
    ∀ (s : List (κ × σ)) (k : κ),
      hasKey (runAgg A s items) k
        = (hasKey s k
            || items.any (fun i => decide (A.keyOf i = some k) && (A.init i).isSome)) := by
  induction items with
  | nil => intro s k; simp [runAgg]
  | cons i items ih =>
    intro s k
    rw [runAgg_cons, ih, hasKey_applyItem]
    simp [List.any_cons, Bool.or_assoc]

theorem inv_applyItem [DecidableEq κ] (A : Agg ι κ σ) (P : σ → Prop)
    (hupd : ∀ i x, P x → P (A.upd i x))
    (hinit : ∀ i v, A.init i = some v → P v)
    (s : List (κ × σ)) (hs : ∀ e ∈ s, P e.2) (i : ι) :
    ∀ e ∈ applyItem A s i, P e.2 := by
  intro e he
  cases hko : A.keyOf i with
  | none => rw [applyItem_keyOf_none A s hko] at he; exact hs e he
  | some k =>
    cases hks : hasKey s k with
    | true =>
      rw [applyItem_present A s hko hks] at he
      rcases List.mem_map.mp he with ⟨e₀, he₀, hmap⟩
      by_cases hk : e₀.1 = k
      · rw [if_pos hk] at hmap
        subst hmap
        exact hupd i e₀.2 (hs e₀ he₀)
      · rw [if_neg hk] at hmap
        subst hmap
        exact hs e₀ he₀
    | false =>
      cases hin : A.init i with
      | none => rw [applyItem_absent_skip A s hko hks hin] at he; exact hs e he
      | some v =>
        rw [applyItem_absent_create A s hko hks hin] at he
        rcases List.mem_append.mp he with h | h
        · exact hs e h
        · rcases List.mem_singleton.mp h with rfl
          exact hupd i v (hinit i v hin)

/-- Every row of a run satisfies any property that holds of the initial rows
and the freshly created rows and is preserved by every update. -/
theorem inv_runAgg [DecidableEq κ] (A : Agg ι κ σ) (P : σ → Prop)
    (hupd : ∀ i x, P x → P (A.upd i x))
    (hinit : ∀ i v, A.init i = some v → P v) :
    ∀ (items : List ι) (s : List (κ × σ)), (∀ e ∈ s, P e.2) →
      ∀ e ∈ runAgg A s items, P e.2 := by
  intro items
  induction items with
  | nil => intro s hs e he; exact hs e he
  | cons i items ih =>
    intro s hs e he
    exact ih (applyItem A s i) (inv_applyItem A P hupd hinit s hs i) e he
theorem hasKey_of_mem [DecidableEq κ] {s : List (κ × σ)} {e : κ × σ} {k : κ}
    (h : e ∈ s) (hk : e.1 = k) : hasKey s k = true := by
  unfold hasKey
  exact List.any_eq_true.mpr ⟨e, h, decide_eq_true hk⟩

theorem keySum_cons_of_none [DecidableEq κ] {A : Agg ι κ σ} {c : ι → ℚ} {k : κ}
    {i : ι} {items : List ι} (hko : A.keyOf i = none) :
    keySum A c k (i :: items) = keySum A c k items := by
  rw [keySum_cons, hko]
  simp

theorem keySum_cons_of_eq [DecidableEq κ] {A : Agg ι κ σ} {c : ι → ℚ} {k : κ}
    {i : ι} {items : List ι} (hko : A.keyOf i = some k) :
    keySum A c k (i :: items) = c i + keySum A c k items := by
  rw [keySum_cons, hko, if_pos rfl]

theorem keySum_cons_of_ne [DecidableEq κ] {A : Agg ι κ σ} {c : ι → ℚ} {k k₀ : κ}
    {i : ι} {items : List ι} (hko : A.keyOf i = some k₀) (hne : ¬ k = k₀) :
    keySum A c k (i :: items) = keySum A c k items := by
  rw [keySum_cons, hko, if_neg (fun h => hne (Option.some_inj.mp h).symm)]
  simp

/-- The central accounting lemma: after a run, the projection `proj` of a
row equals its starting value plus the sum of the contributions `c i` of
exactly the items the aggregator maps to the row's key (and exactly that sum
when the row was created during the run).  `huni` says that whether a key's
row may be created does not depend on which item of the key arrives first,
which holds of every aggregator in the source. -/
theorem proj_runAgg_mem [DecidableEq κ] (A : Agg ι κ σ) (proj : σ → ℚ) (c : ι → ℚ)
    (hupd : ∀ i x, proj (A.upd i x) = proj x + c i)
    (hinit : ∀ i v, A.init i = some v → proj v = 0) :
    ∀ (items : List ι),
      (∀ i ∈ items, ∀ j ∈ items, ∀ k, A.keyOf i = some k → A.keyOf j = some k →
        (A.init i).isSome = (A.init j).isSome) →
      ∀ (s : List (κ × σ)), ∀ e ∈ runAgg A s items,
      (∃ e₀ ∈ s, e₀.1 = e.1 ∧ proj e.2 = proj e₀.2 + keySum A c e.1 items) ∨
      (hasKey s e.1 = false ∧ proj e.2 = keySum A c e.1 items) := by
  intro items
  induction items with
  | nil =>
    intro _ s e he
    exact Or.inl ⟨e, he, rfl, by rw [keySum_nil]; ring⟩
  | cons i items ih =>
    intro huni s e he
    have huni' : ∀ a ∈ items, ∀ b ∈ items, ∀ k, A.keyOf a = some k → A.keyOf b = some k →
        (A.init a).isSome = (A.init b).isSome := fun a ha b hb k =>
      huni a (List.mem_cons_of_mem i ha) b (List.mem_cons_of_mem i hb) k
    have he' : e ∈ runAgg A (applyItem A s i) items := he
    rcases ih huni' (applyItem A s i) e he' with ⟨e₀', he₀', hkey, hsum⟩ | ⟨hnk, hsum⟩
    · -- the row descends from a row present after processing `i`
      cases hko : A.keyOf i with
      | none =>
        rw [applyItem_keyOf_none A s hko] at he₀'
        exact Or.inl ⟨e₀', he₀', hkey, by rw [hsum, keySum_cons_of_none hko]⟩
      | some k₀ =>
        cases hks : hasKey s k₀ with
        | true =>
          rw [applyItem_present A s hko hks] at he₀'
          rcases List.mem_map.mp he₀' with ⟨e₁, he₁, hmap⟩
          by_cases hk : e₁.1 = k₀
          · rw [if_pos hk] at hmap
            have hkey1 : e₁.1 = e.1 := by rw [← hkey, ← hmap]
            have hek : e.1 = k₀ := by rw [← hkey1, hk]
            refine Or.inl ⟨e₁, he₁, hkey1, ?_⟩
            have hproj : proj e₀'.2 = proj e₁.2 + c i := by rw [← hmap]; exact hupd i e₁.2
            rw [hsum, hproj, keySum_cons_of_eq (by rw [hko, hek])]
            ring
          · rw [if_neg hk] at hmap
            have hkey1 : e₁.1 = e.1 := by rw [← hkey, ← hmap]
            have hek : ¬ e.1 = k₀ := by rw [← hkey1]; exact hk
            refine Or.inl ⟨e₁, he₁, hkey1, ?_⟩
            rw [hsum, ← hmap, keySum_cons_of_ne hko hek]
        | false =>
          cases hin : A.init i with
          | none =>
            rw [applyItem_absent_skip A s hko hks hin] at he₀'
            by_cases hek : e.1 = k₀
            · exact absurd (hasKey_of_mem he₀' (by rw [hkey, hek])) (by rw [hks]; simp)
            · exact Or.inl ⟨e₀', he₀', hkey,
                by rw [hsum, keySum_cons_of_ne hko hek]⟩
          | some v =>
            rw [applyItem_absent_create A s hko hks hin] at he₀'
            rcases List.mem_append.mp he₀' with h | h
            · by_cases hek : e.1 = k₀
              · exact absurd (hasKey_of_mem h (by rw [hkey, hek])) (by rw [hks]; simp)
              · exact Or.inl ⟨e₀', h, hkey,
                  by rw [hsum, keySum_cons_of_ne hko hek]⟩
            · rcases List.mem_singleton.mp h with rfl
              have hek : e.1 = k₀ := by rw [← hkey]
              refine Or.inr ⟨by rw [hek]; exact hks, ?_⟩
              have hproj : proj (A.upd i v) = c i := by
                rw [hupd, hinit i v hin]; ring
              rw [hsum, hproj, keySum_cons_of_eq (by rw [hko, hek])]
    · -- the row's key was absent after processing `i`
      cases hko : A.keyOf i with
      | none =>
        rw [applyItem_keyOf_none A s hko] at hnk
        exact Or.inr ⟨hnk, by rw [hsum, keySum_cons_of_none hko]⟩
      | some k₀ =>
        cases hks : hasKey s k₀ with
        | true =>
          rw [applyItem_present A s hko hks, hasKey_map_upd] at hnk
          by_cases hek : e.1 = k₀
          · rw [hek] at hnk
            rw [hnk] at hks
            exact absurd hks (by simp)
          · exact Or.inr ⟨hnk, by rw [hsum, keySum_cons_of_ne hko hek]⟩
        | false =>
          cases hin : A.init i with
          | none =>
            rw [applyItem_absent_skip A s hko hks hin] at hnk he'
            by_cases hek : e.1 = k₀
            · -- impossible: `i` maps to `e`'s key with `init i = none`; by
              -- uniformity no item of that key can create a row, yet `e`'s
              -- key is present at the end of the run
              exfalso
              have hpres : hasKey (runAgg A s items) e.1 = true :=
                hasKey_of_mem he' rfl
              rw [hasKey_runAgg] at hpres
              rcases Bool.or_eq_true_iff.mp hpres with h | h
              · rw [h] at hnk; exact absurd hnk (by simp)
              · rcases List.any_eq_true.mp h with ⟨j, hj, hjp⟩
                rcases Bool.and_eq_true_iff.mp hjp with ⟨hj1, hj2⟩
                have hj1' : A.keyOf j = some e.1 := of_decide_eq_true hj1
                have hu := huni i (List.mem_cons_self i items) j
                  (List.mem_cons_of_mem i hj) e.1 (by rw [hko, hek]) hj1'
                rw [hin] at hu
                rw [← hu] at hj2
                exact absurd hj2 (by simp)
            · exact Or.inr ⟨hnk, by rw [hsum, keySum_cons_of_ne hko hek]⟩
          | some v =>
            rw [applyItem_absent_create A s hko hks hin] at hnk
            have hek : ¬ e.1 = k₀ := by
              intro hek
              have : hasKey (s ++ [(k₀, A.upd i v)]) e.1 = true := by
                rw [hek]
                unfold hasKey
                exact List.any_eq_true.mpr ⟨(k₀, A.upd i v), by simp, by simp⟩
              rw [this] at hnk
              exact absurd hnk (by simp)
            have hnk' : hasKey s e.1 = false := by
              unfold hasKey at hnk ⊢
              rw [List.any_append] at hnk
              exact (Bool.or_eq_false_iff.mp hnk).1
            exact Or.inr ⟨hnk', by rw [hsum, keySum_cons_of_ne hko hek]⟩

theorem keySum_const_zero [DecidableEq κ] (A : Agg ι κ σ) (k : κ) (items : List ι) :
    keySum A (fun _ => 0) k items = 0 := by
  induction items with
  | nil => rfl
  | cons i items ih => rw [keySum_cons, ih]; split <;> ring

theorem keySum_eq_zero_of_none [DecidableEq κ] (A : Agg ι κ σ) (c : ι → ℚ)
    (k : κ) (items : List ι) (h : ∀ i ∈ items, A.keyOf i ≠ some k) :
    keySum A c k items = 0 := by
  unfold keySum
  have hf : items.filter (fun i => A.keyOf i = some k) = [] := by
    rw [List.filter_eq_nil_iff]
    intro a ha
    simpa using h a ha
  rw [hf]
  rfl

theorem inv2_applyItem [DecidableEq κ] (A : Agg ι κ σ) (P : κ × σ → Prop)
    (hupd : ∀ i k x, P (k, x) → P (k, A.upd i x))
    (hinit : ∀ i k v, A.keyOf i = some k → A.init i = some v → P (k, A.upd i v))
    (s : List (κ × σ)) (hs : ∀ e ∈ s, P e) (i : ι) :
    ∀ e ∈ applyItem A s i, P e := by
  intro e he
  cases hko : A.keyOf i with
  | none => rw [applyItem_keyOf_none A s hko] at he; exact hs e he
  | some k =>
    cases hks : hasKey s k with
    | true =>
      rw [applyItem_present A s hko hks] at he
      rcases List.mem_map.mp he with ⟨e₀, he₀, hmap⟩
      by_cases hk : e₀.1 = k
      · rw [if_pos hk] at hmap
        subst hmap
        exact hupd i e₀.1 e₀.2 (by rw [Prod.mk.eta]; exact hs e₀ he₀)
      · rw [if_neg hk] at hmap
        subst hmap
        exact hs e₀ he₀
    | false =>
      cases hin : A.init i with
      | none => rw [applyItem_absent_skip A s hko hks hin] at he; exact hs e he
      | some v =>
        rw [applyItem_absent_create A s hko hks hin] at he
        rcases List.mem_append.mp he with h | h
        · exact hs e h
        · rcases List.mem_singleton.mp h with rfl
          exact hinit i k v hko hin

/-- Pair-level version of `inv_runAgg`: a property of (key, row) pairs that
holds of freshly created rows and is preserved by updates holds of every
entry of a run. -/
theorem inv2_runAgg [DecidableEq κ] (A : Agg ι κ σ) (P : κ × σ → Prop)
    (hupd : ∀ i k x, P (k, x) → P (k, A.upd i x))
    (hinit : ∀ i k v, A.keyOf i = some k → A.init i = some v → P (k, A.upd i v)) :
    ∀ (items : List ι) (s : List (κ × σ)), (∀ e ∈ s, P e) →
      ∀ e ∈ runAgg A s items, P e := by
  intro items
  induction items with
  | nil => intro s hs e he; exact hs e he
  | cons i items ih =>
    intro s hs e he
    exact ih (applyItem A s i) (inv2_applyItem A P hupd hinit s hs i) e he

/-! ### Debt ledger: claim theorems -/

/-- `proj_runAgg_mem` with a uniformity hypothesis over all items. -/
theorem proj_runAgg [DecidableEq κ] (A : Agg ι κ σ) (proj : σ → ℚ) (c : ι → ℚ)
    (hupd : ∀ i x, proj (A.upd i x) = proj x + c i)
    (hinit : ∀ i v, A.init i = some v → proj v = 0)
    (huni : ∀ i j k, A.keyOf i = some k → A.keyOf j = some k →
      (A.init i).isSome = (A.init j).isSome) :
    ∀ (items : List ι) (s : List (κ × σ)), ∀ e ∈ runAgg A s items,
      (∃ e₀ ∈ s, e₀.1 = e.1 ∧ proj e.2 = proj e₀.2 + keySum A c e.1 items) ∨
      (hasKey s e.1 = false ∧ proj e.2 = keySum A c e.1 items) := by
  intro items s e he
  exact proj_runAgg_mem A proj c hupd hinit items
    (fun i _ j _ k hi hj => huni i j k hi hj) s e he

theorem debtMovementKeyOf_some {dateFrom dateTo : Option Int}
    {selectedDistrict selectedStore : String} {m : Movement} {k : String}
    (h : debtMovementKeyOf dateFrom dateTo selectedDistrict selectedStore m = some k) :
    ∃ sid, m.storeId = some sid ∧ k = m.districtId ++ "-" ++ sid := by
  unfold debtMovementKeyOf at h
  by_cases h1 : m.paymentType ≠ "credit"
  · rw [if_pos h1] at h; cases h
  rw [if_neg h1] at h
  cases hst : m.storeId with
  | none => simp only [hst] at h; exact absurd h (by simp)
  | some sid =>
    simp only [hst] at h
    refine ⟨sid, rfl, ?_⟩
    split_ifs at h
    exact (Option.some_inj.mp h).symm

theorem debtPaymentKeyOf_some {stores : List Store} {dateFrom dateTo : Option Int}
    {selectedDistrict selectedStore : String} {p : StorePayment} {k : String}
    (h : debtPaymentKeyOf stores dateFrom dateTo selectedDistrict selectedStore p = some k) :
    ∃ pd, paymentDistrictId stores p = some pd ∧ k = pd ++ "-" ++ p.storeId := by
  unfold debtPaymentKeyOf at h
  cases hpd : paymentDistrictId stores p with
  | none => simp only [hpd] at h; exact absurd h (by simp)
  | some pd =>
    simp only [hpd] at h
    refine ⟨pd, rfl, ?_⟩
    split_ifs at h
    exact (Option.some_inj.mp h).symm

theorem debtMovementAgg_init_eq (stores : List Store) (districts : List District)
    (dateFrom dateTo : Option Int) (selectedDistrict selectedStore : String)
    {m : Movement} {sid : String} (hsid : m.storeId = some sid) :
    (debtMovementAgg stores districts dateFrom dateTo selectedDistrict selectedStore).init m
      = some (debtInitRow stores districts m.districtId sid) := by
  show (match m.storeId with
    | none => none
    | some sid => some (debtInitRow stores districts m.districtId sid)) = _
  rw [hsid]

theorem debtPaymentAgg_init_eq (stores : List Store) (districts : List District)
    (dateFrom dateTo : Option Int) (selectedDistrict selectedStore : String)
    {p : StorePayment} {pd : String} (hpd : paymentDistrictId stores p = some pd) :
    (debtPaymentAgg stores districts dateFrom dateTo selectedDistrict selectedStore).init p
      = some (debtInitRow stores districts pd p.storeId) := by
  show (match paymentDistrictId stores p with
    | none => none
    | some pd => some (debtInitRow stores districts pd p.storeId)) = _
  rw [hpd]

theorem debtMovementAgg_init_isSome (stores : List Store) (districts : List District)
    (dateFrom dateTo : Option Int) (selectedDistrict selectedStore : String)
    {m : Movement} {k : String}
    (h : (debtMovementAgg stores districts dateFrom dateTo selectedDistrict selectedStore).keyOf m = some k) :
    ((debtMovementAgg stores districts dateFrom dateTo selectedDistrict selectedStore).init m).isSome = true := by
  rcases debtMovementKeyOf_some h with ⟨sid, hsid, -⟩
  rw [debtMovementAgg_init_eq stores districts dateFrom dateTo selectedDistrict selectedStore hsid]
  rfl

theorem debtPaymentAgg_init_isSome (stores : List Store) (districts : List District)
    (dateFrom dateTo : Option Int) (selectedDistrict selectedStore : String)
    {p : StorePayment} {k : String}
    (h : (debtPaymentAgg stores districts dateFrom dateTo selectedDistrict selectedStore).keyOf p = some k) :
    ((debtPaymentAgg stores districts dateFrom dateTo selectedDistrict selectedStore).init p).isSome = true := by
  rcases debtPaymentKeyOf_some h with ⟨pd, hpd, -⟩
  rw [debtPaymentAgg_init_eq stores districts dateFrom dateTo selectedDistrict selectedStore hpd]
  rfl

/-- Every entry after both passes of `calculateDebts` carries its key as `id`,
has `creditAmount` equal to the sum of the signed amounts of exactly the
matching credit movements of its key, `paymentsAmount` equal to the sum of
the amounts of exactly the matching payments of its key, and
`balance = creditAmount - paymentsAmount`. -/
theorem calculateDebts_entry_spec (movements : List Movement)
    (payments : List StorePayment) (stores : List Store) (districts : List District)
    (dateFrom dateTo : Option Int) (selectedDistrict selectedStore : String) :
    ∀ e ∈ runAgg (debtPaymentAgg stores districts dateFrom dateTo selectedDistrict selectedStore)
        (runAgg (debtMovementAgg stores districts dateFrom dateTo selectedDistrict selectedStore) [] movements)
        payments,
      e.2.id = e.1 ∧
      e.2.creditAmount =
        keySum (debtMovementAgg stores districts dateFrom dateTo selectedDistrict selectedStore)
          debtMovementContribution e.1 movements ∧
      e.2.paymentsAmount =
        keySum (debtPaymentAgg stores districts dateFrom dateTo selectedDistrict selectedStore)
          StorePayment.amount e.1 payments ∧
      e.2.balance = e.2.creditAmount - e.2.paymentsAmount := by
  intro e he
  have huniM : ∀ (i j : Movement) (k : String),
      (debtMovementAgg stores districts dateFrom dateTo selectedDistrict selectedStore).keyOf i = some k →
      (debtMovementAgg stores districts dateFrom dateTo selectedDistrict selectedStore).keyOf j = some k →
      ((debtMovementAgg stores districts dateFrom dateTo selectedDistrict selectedStore).init i).isSome
        = ((debtMovementAgg stores districts dateFrom dateTo selectedDistrict selectedStore).init j).isSome := by
    intro i j k hi hj
    rw [debtMovementAgg_init_isSome stores districts dateFrom dateTo selectedDistrict selectedStore hi,
      debtMovementAgg_init_isSome stores districts dateFrom dateTo selectedDistrict selectedStore hj]
  have huniP : ∀ (i j : StorePayment) (k : String),
      (debtPaymentAgg stores districts dateFrom dateTo selectedDistrict selectedStore).keyOf i = some k →
      (debtPaymentAgg stores districts dateFrom dateTo selectedDistrict selectedStore).keyOf j = some k →
      ((debtPaymentAgg stores districts dateFrom dateTo selectedDistrict selectedStore).init i).isSome
        = ((debtPaymentAgg stores districts dateFrom dateTo selectedDistrict selectedStore).init j).isSome := by
    intro i j k hi hj
    rw [debtPaymentAgg_init_isSome stores districts dateFrom dateTo selectedDistrict selectedStore hi,
      debtPaymentAgg_init_isSome stores districts dateFrom dateTo selectedDistrict selectedStore hj]
  have hinitM : ∀ (i : Movement) (v : StoreDebtSummary),
      (debtMovementAgg stores districts dateFrom dateTo selectedDistrict selectedStore).init i = some v →
      v.creditAmount = 0 ∧ v.paymentsAmount = 0 ∧ v.balance = 0 := by
    intro i v hv
    cases hst : i.storeId with
    | none =>
      rw [show (debtMovementAgg stores districts dateFrom dateTo selectedDistrict selectedStore).init i
          = (match i.storeId with
             | none => none
             | some sid => some (debtInitRow stores districts i.districtId sid)) from rfl,
        hst] at hv
      cases hv
    | some sid =>
      rw [debtMovementAgg_init_eq stores districts dateFrom dateTo selectedDistrict selectedStore hst] at hv
      rw [← Option.some_inj.mp hv]
      exact ⟨rfl, rfl, rfl⟩
  have hinitP : ∀ (i : StorePayment) (v : StoreDebtSummary),
      (debtPaymentAgg stores districts dateFrom dateTo selectedDistrict selectedStore).init i = some v →
      v.creditAmount = 0 ∧ v.paymentsAmount = 0 ∧ v.balance = 0 := by
    intro i v hv
    cases hpd : paymentDistrictId stores i with
    | none =>
      rw [show (debtPaymentAgg stores districts dateFrom dateTo selectedDistrict selectedStore).init i
          = (match paymentDistrictId stores i with
             | none => none
             | some pd => some (debtInitRow stores districts pd i.storeId)) from rfl,
        hpd] at hv
      cases hv
    | some pd =>
      rw [debtPaymentAgg_init_eq stores districts dateFrom dateTo selectedDistrict selectedStore hpd] at hv
      rw [← Option.some_inj.mp hv]
      exact ⟨rfl, rfl, rfl⟩
  refine ⟨?_, ?_, ?_, ?_⟩
  · -- every entry's row carries its key as `id`
    refine inv2_runAgg _ (fun q : String × StoreDebtSummary => q.2.id = q.1)
      (fun i k x hx => hx) ?_ payments _ ?_ e he
    · intro i k v hk hv
      rcases debtPaymentKeyOf_some hk with ⟨pd, hpd, rfl⟩
      rw [debtPaymentAgg_init_eq stores districts dateFrom dateTo selectedDistrict selectedStore hpd] at hv
      have hveq : v = debtInitRow stores districts pd i.storeId := (Option.some_inj.mp hv).symm
      subst hveq
      rfl
    · refine inv2_runAgg _ (fun q : String × StoreDebtSummary => q.2.id = q.1)
        (fun i k x hx => hx) ?_ movements [] (by intro e' he'; cases he')
      intro i k v hk hv
      rcases debtMovementKeyOf_some hk with ⟨sid, hsid, rfl⟩
      rw [debtMovementAgg_init_eq stores districts dateFrom dateTo selectedDistrict selectedStore hsid] at hv
      have hveq : v = debtInitRow stores districts i.districtId sid := (Option.some_inj.mp hv).symm
      subst hveq
      rfl
  · -- creditAmount: accumulated by the movement pass, preserved by payments
    have h2 := proj_runAgg (debtPaymentAgg stores districts dateFrom dateTo selectedDistrict selectedStore)
      (fun r => r.creditAmount) (fun _ => 0)
      (fun i x => by
        show x.creditAmount = x.creditAmount + 0
        ring)
      (fun i v hv => (hinitP i v hv).1)
      huniP payments _ e he
    have h1 := proj_runAgg (debtMovementAgg stores districts dateFrom dateTo selectedDistrict selectedStore)
      (fun r => r.creditAmount) debtMovementContribution
      (fun i x => rfl)
      (fun i v hv => (hinitM i v hv).1)
      huniM movements []
    dsimp only at h1 h2
    rcases h2 with ⟨e₀, he₀, hkey, hsum⟩ | ⟨hnk, hsum⟩
    · rcases h1 e₀ he₀ with ⟨e₁, he₁, -, -⟩ | ⟨-, hsum1⟩
      · cases he₁
      · rw [hsum, hsum1, hkey, keySum_const_zero]
        ring
    · rw [hsum, keySum_const_zero]
      have hnomov : ∀ i ∈ movements,
          ¬ (debtMovementAgg stores districts dateFrom dateTo selectedDistrict selectedStore).keyOf i = some e.1 := by
        intro i hi hk
        have hpres : hasKey (runAgg (debtMovementAgg stores districts dateFrom dateTo selectedDistrict selectedStore)
            ([] : List (String × StoreDebtSummary)) movements) e.1 = true := by
          rw [hasKey_runAgg]
          refine Bool.or_eq_true_iff.mpr (Or.inr ?_)
          refine List.any_eq_true.mpr ⟨i, hi, ?_⟩
          rw [debtMovementAgg_init_isSome stores districts dateFrom dateTo selectedDistrict selectedStore hk]
          simp [hk]
        rw [hpres] at hnk
        exact absurd hnk (by simp)
      rw [keySum_eq_zero_of_none _ debtMovementContribution e.1 movements hnomov]
  · -- paymentsAmount: zero after the movement pass, accumulated by payments
    have h2 := proj_runAgg (debtPaymentAgg stores districts dateFrom dateTo selectedDistrict selectedStore)
      (fun r => r.paymentsAmount) StorePayment.amount
      (fun i x => rfl)
      (fun i v hv => (hinitP i v hv).2.1)
      huniP payments _ e he
    have h1 := proj_runAgg (debtMovementAgg stores districts dateFrom dateTo selectedDistrict selectedStore)
      (fun r => r.paymentsAmount) (fun _ => 0)
      (fun i x => by
        show x.paymentsAmount = x.paymentsAmount + 0
        ring)
      (fun i v hv => (hinitM i v hv).2.1)
      huniM movements []
    dsimp only at h1 h2
    rcases h2 with ⟨e₀, he₀, hkey, hsum⟩ | ⟨-, hsum⟩
    · rcases h1 e₀ he₀ with ⟨e₁, he₁, -, -⟩ | ⟨-, hsum1⟩
      · cases he₁
      · rw [hsum, hsum1, keySum_const_zero]
        ring
    · rw [hsum]
  · -- balance = creditAmount - paymentsAmount, an invariant of both passes
    refine inv_runAgg _ (fun r : StoreDebtSummary => r.balance = r.creditAmount - r.paymentsAmount)
      ?_ ?_ payments _ ?_ e he
    · intro i x hx
      show x.balance - i.amount = x.creditAmount - (x.paymentsAmount + i.amount)
      rw [hx]
      ring
    · intro i v hv
      rcases hinitP i v hv with ⟨h1, h2, h3⟩
      rw [h1, h2, h3]
      ring
    · refine inv_runAgg _ (fun r : StoreDebtSummary => r.balance = r.creditAmount - r.paymentsAmount)
        ?_ ?_ movements [] (by intro e' he'; cases he')
      · intro i x hx
        show x.balance + debtMovementContribution i
          = (x.creditAmount + debtMovementContribution i) - x.paymentsAmount
        rw [hx]
        ring
      · intro i v hv
        rcases hinitM i v hv with ⟨h1, h2, h3⟩
        rw [h1, h2, h3]
        ring

theorem mem_calculateDebts (movements : List Movement) (payments : List StorePayment)
    (stores : List Store) (districts : List District) (dateFrom dateTo : Option Int)
    (selectedDistrict selectedStore : String) (r : StoreDebtSummary) :
    r ∈ calculateDebts movements payments stores districts dateFrom dateTo selectedDistrict selectedStore ↔
    ∃ e ∈ runAgg (debtPaymentAgg stores districts dateFrom dateTo selectedDistrict selectedStore)
        (runAgg (debtMovementAgg stores districts dateFrom dateTo selectedDistrict selectedStore) [] movements)
        payments, e.2 = r := by
  show r ∈ ((runAgg (debtPaymentAgg stores districts dateFrom dateTo selectedDistrict selectedStore)
        (runAgg (debtMovementAgg stores districts dateFrom dateTo selectedDistrict selectedStore) [] movements)
        payments).map Prod.snd).mergeSort (fun a b => b.balance ≤ a.balance) ↔ _
  rw [List.mem_mergeSort, List.mem_map]

/-- **C1.**  `calculateDebts` processes exactly the movements with
`paymentType == "credit"` and a present `storeId` that pass the district/store
filters and the date window: each output row's `creditAmount` is the sum of
`sign * quantity * unitPrice` over exactly those movements of the row's key,
with `sign = -1` for `operationType == "return"` and `+1` otherwise; each
matching payment adds its `amount` to `paymentsAmount`; and `balance` is the
former sum minus the latter (so a single credit sale of qty 10 at price 100
gives balance 1000, and a payment of 400 drops it to 600: see the witness). -/
theorem calculateDebts_processes_exactly_matching (movements : List Movement)
    (payments : List StorePayment) (stores : List Store) (districts : List District)
    (dateFrom dateTo : Option Int) (selectedDistrict selectedStore : String) :
    ∀ r ∈ calculateDebts movements payments stores districts dateFrom dateTo selectedDistrict selectedStore,
      r.creditAmount =
        keySum (debtMovementAgg stores districts dateFrom dateTo selectedDistrict selectedStore)
          debtMovementContribution r.id movements ∧
      r.paymentsAmount =
        keySum (debtPaymentAgg stores districts dateFrom dateTo selectedDistrict selectedStore)
          StorePayment.amount r.id payments ∧
      r.balance =
        keySum (debtMovementAgg stores districts dateFrom dateTo selectedDistrict selectedStore)
          debtMovementContribution r.id movements
        - keySum (debtPaymentAgg stores districts dateFrom dateTo selectedDistrict selectedStore)
            StorePayment.amount r.id payments := by
  intro r hr
  rcases (mem_calculateDebts movements payments stores districts dateFrom dateTo
    selectedDistrict selectedStore r).mp hr with ⟨e, he, rfl⟩
  rcases calculateDebts_entry_spec movements payments stores districts dateFrom dateTo
    selectedDistrict selectedStore e he with ⟨hid, hc, hp, hb⟩
  rw [hid]
  exact ⟨hc, hp, by rw [hb, hc, hp]⟩

/-- Witness for C1: the spec's §8 example.  One credit sale (qty 10, price
100) and one payment of 400 produce the single row with creditAmount 1000,
paymentsAmount 400 and balance 600, and the claim's sums hold of it. -/
theorem calculateDebts_processes_exactly_matching_witness :
    exDebtRow ∈ calculateDebts [exCreditSale] [exPayment] [exStore] [exDistrict] none none "all" "all" ∧
    (exDebtRow.creditAmount =
        keySum (debtMovementAgg [exStore] [exDistrict] none none "all" "all")
          debtMovementContribution exDebtRow.id [exCreditSale] ∧
      exDebtRow.paymentsAmount =
        keySum (debtPaymentAgg [exStore] [exDistrict] none none "all" "all")
          StorePayment.amount exDebtRow.id [exPayment] ∧
      exDebtRow.balance =
        keySum (debtMovementAgg [exStore] [exDistrict] none none "all" "all")
          debtMovementContribution exDebtRow.id [exCreditSale]
        - keySum (debtPaymentAgg [exStore] [exDistrict] none none "all" "all")
            StorePayment.amount exDebtRow.id [exPayment]) := by
  have hm : exDebtRow ∈ calculateDebts [exCreditSale] [exPayment] [exStore] [exDistrict] none none "all" "all" := by
    simp [calculateDebts, runAgg, applyItem, hasKey, debtMovementAgg, debtPaymentAgg,
      debtMovementKeyOf, debtPaymentKeyOf, paymentDistrictId, debtInitRow, debtSign,
      debtMovementContribution, checkDate, exCreditSale, exPayment, exStore, exDistrict,
      exDebtRow, List.find?, List.foldl]
    norm_num
  exact ⟨hm, calculateDebts_processes_exactly_matching [exCreditSale] [exPayment]
    [exStore] [exDistrict] none none "all" "all" exDebtRow hm⟩

/-- **C10.**  Invariant of the debt ledger: every row returned by
`calculateDebts` satisfies `balance = creditAmount - paymentsAmount` — rows
start at zero, every credit movement adds the same signed amount to both
`creditAmount` and `balance`, and every payment adds its amount to
`paymentsAmount` while subtracting it from `balance`. -/
theorem calculateDebts_balance_eq_credit_sub_payments (movements : List Movement)
    (payments : List StorePayment) (stores : List Store) (districts : List District)
    (dateFrom dateTo : Option Int) (selectedDistrict selectedStore : String) :
    ∀ r ∈ calculateDebts movements payments stores districts dateFrom dateTo selectedDistrict selectedStore,
      r.balance = r.creditAmount - r.paymentsAmount := by
  intro r hr
  rcases (mem_calculateDebts movements payments stores districts dateFrom dateTo
    selectedDistrict selectedStore r).mp hr with ⟨e, he, rfl⟩
  exact (calculateDebts_entry_spec movements payments stores districts dateFrom dateTo
    selectedDistrict selectedStore e he).2.2.2

/-- Witness for C10 at the spec's §8 example: the example row is in the
output and satisfies the balance invariant. -/
theorem calculateDebts_balance_eq_credit_sub_payments_witness :
    exDebtRow ∈ calculateDebts [exCreditSale] [exPayment] [exStore] [exDistrict] none none "all" "all" ∧
    exDebtRow.balance = exDebtRow.creditAmount - exDebtRow.paymentsAmount := by
  have hm : exDebtRow ∈ calculateDebts [exCreditSale] [exPayment] [exStore] [exDistrict] none none "all" "all" := by
    simp [calculateDebts, runAgg, applyItem, hasKey, debtMovementAgg, debtPaymentAgg,
      debtMovementKeyOf, debtPaymentKeyOf, paymentDistrictId, debtInitRow, debtSign,
      debtMovementContribution, checkDate, exCreditSale, exPayment, exStore, exDistrict,
      exDebtRow, List.find?, List.foldl]
    norm_num
  exact ⟨hm, calculateDebts_balance_eq_credit_sub_payments [exCreditSale] [exPayment]
    [exStore] [exDistrict] none none "all" "all" exDebtRow hm⟩

/-- `proj_runAgg` specialised to a run from the empty map: every entry's
projection is exactly its key's contribution sum. -/
theorem proj_runAgg_nil [DecidableEq κ] (A : Agg ι κ σ) (proj : σ → ℚ) (c : ι → ℚ)
    (hupd : ∀ i x, proj (A.upd i x) = proj x + c i)
    (hinit : ∀ i v, A.init i = some v → proj v = 0)
    (huni : ∀ i j k, A.keyOf i = some k → A.keyOf j = some k →
      (A.init i).isSome = (A.init j).isSome)
    (items : List ι) :
    ∀ e ∈ runAgg A [] items, proj e.2 = keySum A c e.1 items := by
  intro e he
  rcases proj_runAgg A proj c hupd hinit huni items [] e he with ⟨e₀, he₀, -, -⟩ | ⟨-, h⟩
  · cases he₀
  · exact h

/-! ### Cost-free report variant: claim theorems -/

theorem finalizeRow_fields (r : ReportRow) :
    (finalizeRow r).id = r.id ∧ (finalizeRow r).revenue = r.revenue ∧
    (finalizeRow r).profit = r.profit ∧ (finalizeRow r).salesQty = r.salesQty ∧
    (finalizeRow r).returnsQty = r.returnsQty ∧
    (finalizeRow r).exchangesQty = r.exchangesQty ∧
    (finalizeRow r).bonusesQty = r.bonusesQty := by
  unfold finalizeRow
  split <;> exact ⟨rfl, rfl, rfl, rfl, rfl, rfl, rfl⟩

/-- Common shape of the two maps of `calculateReportData`: each entry of the
run carries its key as `id`, its `revenue` is the sum of `revenuePart` over
exactly its key's movements, `profit = revenue`, and each quantity tally is
the sum of the quantities of exactly its key's movements of that type. -/
theorem reportAgg_entry_spec (A : Agg Movement String ReportRow)
    (hupd : A.upd = updateRow)
    (hinit : ∀ m v, A.init m = some v →
      v.revenue = 0 ∧ v.profit = 0 ∧ v.salesQty = 0 ∧ v.returnsQty = 0 ∧
      v.exchangesQty = 0 ∧ v.bonusesQty = 0)
    (hinitId : ∀ m k v, A.keyOf m = some k → A.init m = some v → v.id = k)
    (hisSome : ∀ m, (A.init m).isSome = true)
    (items : List Movement) :
    ∀ e ∈ runAgg A [] items,
      e.2.id = e.1 ∧
      e.2.revenue = keySum A reportRevenuePart e.1 items ∧
      e.2.profit = e.2.revenue ∧
      e.2.salesQty = keySum A (qtyIf "sale") e.1 items ∧
      e.2.returnsQty = keySum A (qtyIf "return") e.1 items ∧
      e.2.exchangesQty = keySum A (qtyIf "exchange") e.1 items ∧
      e.2.bonusesQty = keySum A (qtyIf "bonus") e.1 items := by
  have huni : ∀ (i j : Movement) (k : String), A.keyOf i = some k → A.keyOf j = some k →
      (A.init i).isSome = (A.init j).isSome := by
    intro i j k _ _
    rw [hisSome i, hisSome j]
  intro e he
  refine ⟨?_, ?_, ?_, ?_, ?_, ?_, ?_⟩
  · refine inv2_runAgg A (fun q : String × ReportRow => q.2.id = q.1) ?_ ?_ items []
      (by intro e' he'; cases he') e he
    · intro i k x hx
      rw [hupd]
      exact hx
    · intro i k v hk hv
      rw [show ((A.upd i v).id : String) = (updateRow i v).id from by rw [hupd]]
      exact hinitId i k v hk hv
  · exact proj_runAgg_nil A (fun r => r.revenue) reportRevenuePart
      (fun i x => by rw [hupd]; rfl) (fun i v hv => (hinit i v hv).1) huni items e he
  · have h := inv_runAgg A (fun r : ReportRow => r.profit = r.revenue) ?_ ?_ items []
      (by intro e' he'; cases he') e he
    · exact h
    · intro i x hx
      rw [hupd]
      show x.profit + (reportRevenuePart i - 0) = x.revenue + reportRevenuePart i
      rw [hx]; ring
    · intro i v hv
      rw [(hinit i v hv).2.1, (hinit i v hv).1]
  · exact proj_runAgg_nil A (fun r => r.salesQty) (qtyIf "sale")
      (fun i x => by rw [hupd]; rfl) (fun i v hv => (hinit i v hv).2.2.1) huni items e he
  · exact proj_runAgg_nil A (fun r => r.returnsQty) (qtyIf "return")
      (fun i x => by rw [hupd]; rfl) (fun i v hv => (hinit i v hv).2.2.2.1) huni items e he
  · exact proj_runAgg_nil A (fun r => r.exchangesQty) (qtyIf "exchange")
      (fun i x => by rw [hupd]; rfl) (fun i v hv => (hinit i v hv).2.2.2.2.1) huni items e he
  · exact proj_runAgg_nil A (fun r => r.bonusesQty) (qtyIf "bonus")
      (fun i x => by rw [hupd]; rfl) (fun i v hv => (hinit i v hv).2.2.2.2.2) huni items e he

theorem mem_reportDistrictRows (movements : List Movement) (districts : List District)
    (stores : List Store) (dateFrom dateTo : Option Int) (r : ReportRow) :
    r ∈ (calculateReportData movements districts stores dateFrom dateTo).districtRows ↔
    ∃ e ∈ runAgg (reportDistrictAgg districts) []
        (movements.filter (fun m => checkDate dateFrom dateTo m.date)),
      finalizeRow e.2 = r := by
  show r ∈ (((runAgg (reportDistrictAgg districts) []
      (movements.filter (fun m => checkDate dateFrom dateTo m.date))).map Prod.snd).map
        finalizeRow).mergeSort (fun a b => b.profit ≤ a.profit) ↔ _
  rw [List.mem_mergeSort, List.map_map, List.mem_map]
  constructor
  · rintro ⟨e, he, rfl⟩
    exact ⟨e, he, rfl⟩
  · rintro ⟨e, he, rfl⟩
    exact ⟨e, he, rfl⟩

theorem mem_reportStoreRows (movements : List Movement) (districts : List District)
    (stores : List Store) (dateFrom dateTo : Option Int) (r : ReportRow) :
    r ∈ (calculateReportData movements districts stores dateFrom dateTo).storeRows ↔
    ∃ e ∈ runAgg (reportStoreAgg districts stores) []
        (movements.filter (fun m => checkDate dateFrom dateTo m.date)),
      finalizeRow e.2 = r := by
  show r ∈ (((runAgg (reportStoreAgg districts stores) []
      (movements.filter (fun m => checkDate dateFrom dateTo m.date))).map Prod.snd).map
        finalizeRow).mergeSort (fun a b => b.profit ≤ a.profit) ↔ _
  rw [List.mem_mergeSort, List.map_map, List.mem_map]
  constructor
  · rintro ⟨e, he, rfl⟩
    exact ⟨e, he, rfl⟩
  · rintro ⟨e, he, rfl⟩
    exact ⟨e, he, rfl⟩

/-- **C2 counterexample.**  A single `exchange` movement of qty 1 at unit
price 100 (no returns, no sales) yields a district row with revenue 100, not
the zero revenue the claim assigns to exchanges. -/
theorem calculateReportData_exchange_revenue_not_zero :
    (calculateReportData [exExchange] [] [] none none).districtRows.map ReportRow.revenue
      = [100] ∧ ¬ ((100 : ℚ) = 0) := by
  constructor
  · simp [calculateReportData, runAgg, applyItem, hasKey, reportDistrictAgg, updateRow,
      finalizeRow, reportRevenuePart, qtyIf, checkDate, exExchange, List.find?, List.foldl]
  · norm_num

/-- **C2 (amended).**  In `calculateReportData`, each row's `revenue` receives
`-quantity*unitPrice` for movements with operationType `return` and
`+quantity*unitPrice` for movements of **every other** operation type —
including `exchange` and `bonus`, which the spec claims contribute zero — the
quantity tallies count sale/return/exchange/bonus movements, and `profit`
equals `revenue`. -/
theorem calculateReportData_revenue_rule (movements : List Movement)
    (districts : List District) (stores : List Store) (dateFrom dateTo : Option Int) :
    (∀ r ∈ (calculateReportData movements districts stores dateFrom dateTo).districtRows,
      r.revenue = keySum (reportDistrictAgg districts) reportRevenuePart r.id
          (movements.filter (fun m => checkDate dateFrom dateTo m.date)) ∧
      r.profit = r.revenue ∧
      r.salesQty = keySum (reportDistrictAgg districts) (qtyIf "sale") r.id
          (movements.filter (fun m => checkDate dateFrom dateTo m.date)) ∧
      r.returnsQty = keySum (reportDistrictAgg districts) (qtyIf "return") r.id
          (movements.filter (fun m => checkDate dateFrom dateTo m.date)) ∧
      r.exchangesQty = keySum (reportDistrictAgg districts) (qtyIf "exchange") r.id
          (movements.filter (fun m => checkDate dateFrom dateTo m.date)) ∧
      r.bonusesQty = keySum (reportDistrictAgg districts) (qtyIf "bonus") r.id
          (movements.filter (fun m => checkDate dateFrom dateTo m.date))) ∧
    (∀ r ∈ (calculateReportData movements districts stores dateFrom dateTo).storeRows,
      r.revenue = keySum (reportStoreAgg districts stores) reportRevenuePart r.id
          (movements.filter (fun m => checkDate dateFrom dateTo m.date)) ∧
      r.profit = r.revenue ∧
      r.salesQty = keySum (reportStoreAgg districts stores) (qtyIf "sale") r.id
          (movements.filter (fun m => checkDate dateFrom dateTo m.date)) ∧
      r.returnsQty = keySum (reportStoreAgg districts stores) (qtyIf "return") r.id
          (movements.filter (fun m => checkDate dateFrom dateTo m.date)) ∧
      r.exchangesQty = keySum (reportStoreAgg districts stores) (qtyIf "exchange") r.id
          (movements.filter (fun m => checkDate dateFrom dateTo m.date)) ∧
      r.bonusesQty = keySum (reportStoreAgg districts stores) (qtyIf "bonus") r.id
          (movements.filter (fun m => checkDate dateFrom dateTo m.date))) := by
  constructor
  · intro r hr
    rcases (mem_reportDistrictRows movements districts stores dateFrom dateTo r).mp hr
      with ⟨e, he, rfl⟩
    rcases reportAgg_entry_spec (reportDistrictAgg districts) rfl
      (by intro m v hv
          rcases Option.some_inj.mp hv with rfl
          exact ⟨rfl, rfl, rfl, rfl, rfl, rfl⟩)
      (by intro m k v hk hv
          rcases Option.some_inj.mp hv with rfl
          exact Option.some_inj.mp hk)
      (fun m => rfl)
      (movements.filter (fun m => checkDate dateFrom dateTo m.date)) e he
      with ⟨hid, hrev, hprof, hs, hret, hexc, hbon⟩
    rcases finalizeRow_fields e.2 with ⟨fid, frev, fprof, fs, fret, fexc, fbon⟩
    rw [fid, frev, fprof, fs, fret, fexc, fbon, hid]
    exact ⟨hrev, by rw [hprof], hs, hret, hexc, hbon⟩
  · intro r hr
    rcases (mem_reportStoreRows movements districts stores dateFrom dateTo r).mp hr
      with ⟨e, he, rfl⟩
    rcases reportAgg_entry_spec (reportStoreAgg districts stores) rfl
      (by intro m v hv
          rcases Option.some_inj.mp hv with rfl
          exact ⟨rfl, rfl, rfl, rfl, rfl, rfl⟩)
      (by intro m k v hk hv
          rcases Option.some_inj.mp hv with rfl
          exact Option.some_inj.mp hk)
      (fun m => rfl)
      (movements.filter (fun m => checkDate dateFrom dateTo m.date)) e he
      with ⟨hid, hrev, hprof, hs, hret, hexc, hbon⟩
    rcases finalizeRow_fields e.2 with ⟨fid, frev, fprof, fs, fret, fexc, fbon⟩
    rw [fid, frev, fprof, fs, fret, fexc, fbon, hid]
    exact ⟨hrev, by rw [hprof], hs, hret, hexc, hbon⟩

/-- Witness for the amended C2: the `exchange`-only input produces the row
`exReportRow` with revenue 100 = profit, and the characterization holds. -/
theorem calculateReportData_revenue_rule_witness :
    exReportRow ∈ (calculateReportData [exExchange] [] [] none none).districtRows ∧
    (exReportRow.revenue = keySum (reportDistrictAgg []) reportRevenuePart exReportRow.id
        ([exExchange].filter (fun m => checkDate none none m.date)) ∧
      exReportRow.profit = exReportRow.revenue ∧
      exReportRow.salesQty = keySum (reportDistrictAgg []) (qtyIf "sale") exReportRow.id
        ([exExchange].filter (fun m => checkDate none none m.date)) ∧
      exReportRow.returnsQty = keySum (reportDistrictAgg []) (qtyIf "return") exReportRow.id
        ([exExchange].filter (fun m => checkDate none none m.date)) ∧
      exReportRow.exchangesQty = keySum (reportDistrictAgg []) (qtyIf "exchange") exReportRow.id
        ([exExchange].filter (fun m => checkDate none none m.date)) ∧
      exReportRow.bonusesQty = keySum (reportDistrictAgg []) (qtyIf "bonus") exReportRow.id
        ([exExchange].filter (fun m => checkDate none none m.date))) := by
  have hm : exReportRow ∈ (calculateReportData [exExchange] [] [] none none).districtRows := by
    simp [calculateReportData, runAgg, applyItem, hasKey, reportDistrictAgg, updateRow,
      finalizeRow, reportRevenuePart, qtyIf, checkDate, exExchange, exReportRow,
      List.find?, List.foldl]
  exact ⟨hm, (calculateReportData_revenue_rule [exExchange] [] [] none none).1 exReportRow hm⟩

/-! ### Movements POST: claim theorem -/

theorem usedBefore_nonneg (db : MovementsDb) (date : Int) (productId : String)
    (hnn : ∀ m ∈ db.movements, 0 ≤ m.quantity) :
    0 ≤ usedBefore db date productId := by
  unfold usedBefore
  apply List.sum_nonneg
  intro x hx
  rcases List.mem_map.mp hx with ⟨m, hm, rfl⟩
  exact hnn m (List.mem_filter.mp hm).1

/-- **C3.**  For a request with all required fields, positive quantity, and a
consuming operation type (`sale|exchange|bonus|writeoff`), against a database
whose recorded movement quantities are nonnegative: when
`usedBefore + quantity` exceeds the day's recorded production for the product
(including the case of no production at all, where that total is 0), the
handler answers 400 and leaves the database unchanged; otherwise it inserts
exactly the requested movement row and answers 201 with it. -/
theorem movementsPost_enforces_daily_cap (db : MovementsDb) (req : MovementRequest)
    (h1 : req.date.isSome = true) (h2 : req.districtId.isSome = true)
    (h3 : req.productId.isSome = true) (h4 : req.operationType.isSome = true)
    (h5 : req.unitPrice.isSome = true)
    (hq : 0 < req.quantity)
    (hcons : req.operationType.getD "" ∈ CONSUME_TYPES)
    (hnn : ∀ m ∈ db.movements, 0 ≤ m.quantity) :
    (usedBefore db (req.date.getD 0) (req.productId.getD "") + req.quantity >
        totalProducedFor db (req.date.getD 0) (req.productId.getD "") →
      (∃ msg, (movementsPost db req).1 = PostResult.badRequest msg) ∧
      (movementsPost db req).2 = db) ∧
    (usedBefore db (req.date.getD 0) (req.productId.getD "") + req.quantity ≤
        totalProducedFor db (req.date.getD 0) (req.productId.getD "") →
      (movementsPost db req).1 = PostResult.created (mkMovementRow req) ∧
      (movementsPost db req).2.movements = db.movements ++ [mkMovementRow req] ∧
      (movementsPost db req).2.batches = db.batches) := by
  have hvalid : ¬ (req.date.isNone ∨ req.districtId.isNone ∨ req.productId.isNone ∨
      req.operationType.isNone ∨ req.quantity = 0 ∨ req.unitPrice.isNone) := by
    push_neg
    refine ⟨?_, ?_, ?_, ?_, ?_, ?_⟩
    · simp [Option.isNone_iff_eq_none] at h1 ⊢
      exact Option.isSome_iff_ne_none.mp h1
    · exact Option.isSome_iff_ne_none.mp h2 ∘ Option.isNone_iff_eq_none.mp
    · exact Option.isSome_iff_ne_none.mp h3 ∘ Option.isNone_iff_eq_none.mp
    · exact Option.isSome_iff_ne_none.mp h4 ∘ Option.isNone_iff_eq_none.mp
    · exact ne_of_gt hq
    · exact Option.isSome_iff_ne_none.mp h5 ∘ Option.isNone_iff_eq_none.mp
  have hq' : ¬ req.quantity ≤ 0 := not_le.mpr hq
  have hused : 0 ≤ usedBefore db (req.date.getD 0) (req.productId.getD "") :=
    usedBefore_nonneg db _ _ hnn
  unfold movementsPost
  rw [if_neg hvalid, if_neg hq', if_pos hcons]
  by_cases htp : totalProducedFor db (req.date.getD 0) (req.productId.getD "") ≤ 0
  · rw [if_pos htp]
    constructor
    · intro _
      exact ⟨⟨_, rfl⟩, rfl⟩
    · intro hle
      exact absurd hle (by linarith)
  · rw [if_neg htp]
    by_cases hover : usedBefore db (req.date.getD 0) (req.productId.getD "") + req.quantity >
        totalProducedFor db (req.date.getD 0) (req.productId.getD "")
    · rw [if_pos hover]
      constructor
      · intro _
        exact ⟨⟨_, rfl⟩, rfl⟩
      · intro hle
        exact absurd hle (by linarith)
    · rw [if_neg hover]
      constructor
      · intro hgt
        exact absurd hgt hover
      · intro _
        exact ⟨rfl, rfl, rfl⟩

/-- Witness for C3: against a day with 100 produced and 60 consumed, a
further sale of 50 (110 > 100) is rejected with 400 and the database is
unchanged. -/
theorem movementsPost_enforces_daily_cap_witness :
    (∃ msg, (movementsPost exMovementsDb exCapRequest).1 = PostResult.badRequest msg) ∧
    (movementsPost exMovementsDb exCapRequest).2 = exMovementsDb := by
  refine (movementsPost_enforces_daily_cap exMovementsDb exCapRequest rfl rfl rfl rfl rfl
    (by norm_num [exCapRequest]) (by decide) ?_).1 ?_
  · intro m hm
    rcases List.mem_singleton.mp hm with rfl
    norm_num [exConsumedRow]
  · simp [usedBefore, totalProducedFor, exMovementsDb, exConsumedRow, exBatch,
      exCapRequest, CONSUME_TYPES]
    norm_num

/-! ### Production reconciliation: claim theorems -/

theorem productionMovementAgg_init (m : Movement) :
    productionMovementAgg.init m = none := rfl

theorem production_hasKey_movements (movements : List Movement)
    (s : List (String × ProductionSummaryRow)) (k : String) :
    hasKey (runAgg productionMovementAgg s movements) k = hasKey s k := by
  rw [hasKey_runAgg]
  have h : movements.any (fun i =>
      decide (productionMovementAgg.keyOf i = some k) &&
        (productionMovementAgg.init i).isSome) = false := by
    simp [productionMovementAgg_init]
  rw [h]
  simp

theorem production_hasKey_seeded (products : List Product)
    (fb : List ProductionBatch) (k : String) :
    hasKey (runAgg (productionBatchAgg products) [] fb) k
      = fb.any (fun b => decide ((productionBatchAgg products).keyOf b = some k)) := by
  rw [hasKey_runAgg]
  have h : ∀ b : ProductionBatch,
      ((productionBatchAgg products).init b).isSome = true := fun b => rfl
  have hfalse : hasKey ([] : List (String × ProductionSummaryRow)) k = false := rfl
  rw [hfalse]
  simp only [Bool.false_or]
  congr 1
  funext b
  rw [h b, Bool.and_true]

theorem production_run_id (products : List Product) (fb : List ProductionBatch)
    (movements : List Movement) :
    ∀ e ∈ runAgg productionMovementAgg (runAgg (productionBatchAgg products) [] fb)
        movements, e.2.id = e.1 := by
  refine inv2_runAgg productionMovementAgg (fun q : String × ProductionSummaryRow => q.2.id = q.1)
    (fun i k x hx => hx) (fun i k v hk hv => nomatch hv) movements _ ?_
  refine inv2_runAgg (productionBatchAgg products) (fun q : String × ProductionSummaryRow => q.2.id = q.1)
    (fun i k x hx => hx) ?_ fb [] (by intro e' he'; cases he')
  intro i k v hk hv
  have hk' : some (productionKey i.date i.productId) = some k := hk
  rcases Option.some_inj.mp hk' with rfl
  rcases Option.some_inj.mp hv with rfl
  rfl

/-- A projection untouched by the movement pass traces back to the seeded
entry of the same key. -/
theorem production_entry_preserved (proj : ProductionSummaryRow → ℚ)
    (hproj : ∀ m x, proj (productionMovementAgg.upd m x) = proj x)
    (seeded : List (String × ProductionSummaryRow)) (movements : List Movement) :
    ∀ e ∈ runAgg productionMovementAgg seeded movements,
      ∃ e₀ ∈ seeded, e₀.1 = e.1 ∧ proj e.2 = proj e₀.2 := by
  intro e he
  rcases proj_runAgg productionMovementAgg proj (fun _ => 0)
    (fun i x => by rw [hproj]; ring) (fun i v hv => nomatch hv) (fun i j k _ _ => rfl)
    movements seeded e he with ⟨e₀, he₀, hk, hs⟩ | ⟨hnk, -⟩
  · exact ⟨e₀, he₀, hk, by rw [hs, keySum_const_zero, add_zero]⟩
  · exfalso
    have hpres := hasKey_of_mem he rfl
    rw [production_hasKey_movements] at hpres
    rw [hpres] at hnk
    exact absurd hnk (by simp)

theorem mem_calculateProductionSummary (batches : List ProductionBatch)
    (movements : List Movement) (products : List Product)
    (dateFrom dateTo : Option Int) (r : ProductionSummaryRow) :
    r ∈ calculateProductionSummary batches movements products dateFrom dateTo ↔
    ((batches.filter (fun b => checkDate dateFrom dateTo b.date)).isEmpty = false ∧
      ∃ e ∈ runAgg productionMovementAgg
          (runAgg (productionBatchAgg products) []
            (batches.filter (fun b => checkDate dateFrom dateTo b.date)))
          movements,
        finalizeProductionRow e.2 = r) := by
  show r ∈ (if (batches.filter (fun b => checkDate dateFrom dateTo b.date)).isEmpty then
      ([] : List ProductionSummaryRow)
    else
      (((runAgg productionMovementAgg
          (runAgg (productionBatchAgg products) []
            (batches.filter (fun b => checkDate dateFrom dateTo b.date)))
          movements).map Prod.snd).map finalizeProductionRow).mergeSort productionRowLE) ↔ _
  by_cases hE : (batches.filter (fun b => checkDate dateFrom dateTo b.date)).isEmpty = true
  · rw [if_pos hE]
    simp [hE]
  · rw [if_neg hE]
    rw [List.mem_mergeSort, List.map_map, List.mem_map]
    constructor
    · rintro ⟨e, he, rfl⟩
      exact ⟨Bool.not_eq_true _ ▸ hE, e, he, rfl⟩
    · rintro ⟨-, e, he, rfl⟩
      exact ⟨e, he, rfl⟩

theorem productionRowLE_trans : ∀ a b c : ProductionSummaryRow,
    productionRowLE a b = true → productionRowLE b c = true →
    productionRowLE a c = true := by
  intro a b c hab hbc
  unfold productionRowLE at hab hbc ⊢
  by_cases h1 : a.date = b.date <;> by_cases h2 : b.date = c.date
  · rw [if_pos h1] at hab
    rw [if_pos h2] at hbc
    rw [if_pos (h1.trans h2)]
    exact decide_eq_true (le_trans (of_decide_eq_true hab) (of_decide_eq_true hbc))
  · rw [if_pos h1] at hab
    rw [if_neg h2] at hbc
    have hlt : c.date < b.date := of_decide_eq_true hbc
    rw [if_neg (by rw [h1]; exact fun h => h2 h)]
    exact decide_eq_true (h1 ▸ hlt)
  · rw [if_neg h1] at hab
    rw [if_pos h2] at hbc
    have hlt : b.date < a.date := of_decide_eq_true hab
    rw [if_neg (fun h => h1 (h.trans h2.symm))]
    exact decide_eq_true (h2 ▸ hlt)
  · rw [if_neg h1] at hab
    rw [if_neg h2] at hbc
    have hba : b.date < a.date := of_decide_eq_true hab
    have hcb : c.date < b.date := of_decide_eq_true hbc
    have hca : c.date < a.date := lt_trans hcb hba
    rw [if_neg (fun h => absurd (h ▸ hca) (lt_irrefl _))]
    exact decide_eq_true hca

theorem productionRowLE_total : ∀ a b : ProductionSummaryRow,
    (productionRowLE a b || productionRowLE b a) = true := by
  intro a b
  unfold productionRowLE
  by_cases h : a.date = b.date
  · rw [if_pos h, if_pos h.symm]
    rcases le_total a.productName b.productName with hle | hle
    · rw [decide_eq_true hle]
      simp
    · rw [decide_eq_true hle]
      simp
  · rw [if_neg h, if_neg (fun hh => h hh.symm)]
    rcases lt_or_gt_of_ne h with hlt | hlt
    · rw [decide_eq_true hlt]
      simp
    · rw [decide_eq_true hlt]
      simp

/-- **C4.**  Every row of `calculateProductionSummary` satisfies
`netOutflowQty = salesQty + bonusQty + exchangesQty - returnsQty` and
`theoreticalRestQty = producedQty - netOutflowQty`; its `producedQty` and
`bonusPoolQty` are the sums over exactly the filtered batches of its
`(date, productId)` key; and the output is sorted by date descending, then
product name. -/
theorem calculateProductionSummary_rows (batches : List ProductionBatch)
    (movements : List Movement) (products : List Product)
    (dateFrom dateTo : Option Int) :
    (∀ r ∈ calculateProductionSummary batches movements products dateFrom dateTo,
      r.netOutflowQty = r.salesQty + r.bonusQty + r.exchangesQty - r.returnsQty ∧
      r.theoreticalRestQty = r.producedQty - r.netOutflowQty ∧
      r.producedQty = keySum (productionBatchAgg products) ProductionBatch.producedQty r.id
        (batches.filter (fun b => checkDate dateFrom dateTo b.date)) ∧
      r.bonusPoolQty = keySum (productionBatchAgg products) ProductionBatch.bonusPoolQty r.id
        (batches.filter (fun b => checkDate dateFrom dateTo b.date))) ∧
    List.Sorted (fun a b => productionRowLE a b = true)
      (calculateProductionSummary batches movements products dateFrom dateTo) := by
  constructor
  · intro r hr
    rcases (mem_calculateProductionSummary batches movements products dateFrom dateTo r).mp hr
      with ⟨-, e, he, rfl⟩
    have hid : e.2.id = e.1 := production_run_id products _ movements e he
    refine ⟨rfl, rfl, ?_, ?_⟩
    · rcases production_entry_preserved (fun row => row.producedQty) (fun m x => rfl)
        _ movements e he with ⟨e₀, he₀, hk, hs⟩
      have h0 := proj_runAgg_nil (productionBatchAgg products)
        (fun row => row.producedQty) ProductionBatch.producedQty
        (fun i x => rfl)
        (fun i v hv => by rcases Option.some_inj.mp hv with rfl; rfl)
        (fun i j k _ _ => rfl)
        (batches.filter (fun b => checkDate dateFrom dateTo b.date)) e₀ he₀
      show e.2.producedQty = keySum (productionBatchAgg products) ProductionBatch.producedQty
        (finalizeProductionRow e.2).id (batches.filter (fun b => checkDate dateFrom dateTo b.date))
      have hfid : (finalizeProductionRow e.2).id = e.2.id := rfl
      rw [hfid, hid, ← hk]
      dsimp only at hs h0
      rw [hs, h0]
    · rcases production_entry_preserved (fun row => row.bonusPoolQty) (fun m x => rfl)
        _ movements e he with ⟨e₀, he₀, hk, hs⟩
      have h0 := proj_runAgg_nil (productionBatchAgg products)
        (fun row => row.bonusPoolQty) ProductionBatch.bonusPoolQty
        (fun i x => rfl)
        (fun i v hv => by rcases Option.some_inj.mp hv with rfl; rfl)
        (fun i j k _ _ => rfl)
        (batches.filter (fun b => checkDate dateFrom dateTo b.date)) e₀ he₀
      show e.2.bonusPoolQty = keySum (productionBatchAgg products) ProductionBatch.bonusPoolQty
        (finalizeProductionRow e.2).id (batches.filter (fun b => checkDate dateFrom dateTo b.date))
      have hfid : (finalizeProductionRow e.2).id = e.2.id := rfl
      rw [hfid, hid, ← hk]
      dsimp only at hs h0
      rw [hs, h0]
  · show List.Sorted _ (if (batches.filter (fun b => checkDate dateFrom dateTo b.date)).isEmpty then
        ([] : List ProductionSummaryRow)
      else
        (((runAgg productionMovementAgg
            (runAgg (productionBatchAgg products) []
              (batches.filter (fun b => checkDate dateFrom dateTo b.date)))
            movements).map Prod.snd).map finalizeProductionRow).mergeSort productionRowLE)
    by_cases hE : (batches.filter (fun b => checkDate dateFrom dateTo b.date)).isEmpty = true
    · rw [if_pos hE]
      exact List.sorted_nil
    · rw [if_neg hE]
      exact List.sorted_mergeSort productionRowLE_trans productionRowLE_total _

/-- Witness for C4: producedQty 100 with sale 60, return 10, bonus 5 gives
netOutflow 55 and theoretical rest 45, and the sums hold of that row. -/
theorem calculateProductionSummary_rows_witness :
    exPSRow ∈ calculateProductionSummary [exPSBatch] [exPSSale, exPSReturn, exPSBonus]
      [exProduct] none none ∧
    (exPSRow.netOutflowQty = exPSRow.salesQty + exPSRow.bonusQty + exPSRow.exchangesQty
        - exPSRow.returnsQty ∧
      exPSRow.theoreticalRestQty = exPSRow.producedQty - exPSRow.netOutflowQty ∧
      exPSRow.producedQty = keySum (productionBatchAgg [exProduct]) ProductionBatch.producedQty
        exPSRow.id ([exPSBatch].filter (fun b => checkDate none none b.date)) ∧
      exPSRow.bonusPoolQty = keySum (productionBatchAgg [exProduct]) ProductionBatch.bonusPoolQty
        exPSRow.id ([exPSBatch].filter (fun b => checkDate none none b.date))) := by
  have hkey : productionKey 0 "p1" = "0-p1" := rfl
  have hm : exPSRow ∈ calculateProductionSummary [exPSBatch] [exPSSale, exPSReturn, exPSBonus]
      [exProduct] none none := by
    simp [calculateProductionSummary, runAgg, applyItem, hasKey, productionBatchAgg,
      productionMovementAgg, hkey, finalizeProductionRow, qtyIf, checkDate,
      exPSBatch, exPSSale, exPSReturn, exPSBonus, exProduct, exPSRow,
      List.find?, List.foldl]
    norm_num
  exact ⟨hm, (calculateProductionSummary_rows [exPSBatch] [exPSSale, exPSReturn, exPSBonus]
    [exProduct] none none).1 exPSRow hm⟩

/-- **C5.**  The reconciliation is production-gated: a movement whose
`(date, productId)` key matches no filtered production batch contributes
nothing (dropping it leaves the output unchanged), and every output row's key
is the key of at least one filtered production batch. -/
theorem calculateProductionSummary_production_gated (batches : List ProductionBatch)
    (products : List Product) (dateFrom dateTo : Option Int) :
    (∀ (ms1 ms2 : List Movement) (m : Movement),
      (∀ b ∈ batches.filter (fun b => checkDate dateFrom dateTo b.date),
        productionKey b.date b.productId ≠ productionKey m.date m.productId) →
      calculateProductionSummary batches (ms1 ++ m :: ms2) products dateFrom dateTo
        = calculateProductionSummary batches (ms1 ++ ms2) products dateFrom dateTo) ∧
    (∀ (movements : List Movement),
      ∀ r ∈ calculateProductionSummary batches movements products dateFrom dateTo,
        ∃ b ∈ batches.filter (fun b => checkDate dateFrom dateTo b.date),
          productionKey b.date b.productId = r.id) := by
  constructor
  · intro ms1 ms2 m hm
    show (if (batches.filter (fun b => checkDate dateFrom dateTo b.date)).isEmpty then
        ([] : List ProductionSummaryRow)
      else
        (((runAgg productionMovementAgg
            (runAgg (productionBatchAgg products) []
              (batches.filter (fun b => checkDate dateFrom dateTo b.date)))
            (ms1 ++ m :: ms2)).map Prod.snd).map finalizeProductionRow).mergeSort productionRowLE)
      = _
    by_cases hE : (batches.filter (fun b => checkDate dateFrom dateTo b.date)).isEmpty = true
    · rw [if_pos hE]
      show _ = (if _ then _ else _)
      rw [if_pos hE]
    · rw [if_neg hE]
      show _ = (if _ then _ else _)
      rw [if_neg hE]
      suffices hsame : runAgg productionMovementAgg
          (runAgg (productionBatchAgg products) []
            (batches.filter (fun b => checkDate dateFrom dateTo b.date)))
          (ms1 ++ m :: ms2)
        = runAgg productionMovementAgg
            (runAgg (productionBatchAgg products) []
              (batches.filter (fun b => checkDate dateFrom dateTo b.date)))
            (ms1 ++ ms2) by
        rw [hsame]
      show List.foldl (applyItem productionMovementAgg) _ (ms1 ++ m :: ms2)
        = List.foldl (applyItem productionMovementAgg) _ (ms1 ++ ms2)
      rw [List.foldl_append, List.foldl_append, List.foldl_cons]
      congr 1
      have hmk : productionMovementAgg.keyOf m = some (productionKey m.date m.productId) := rfl
      have hnk : hasKey (List.foldl (applyItem productionMovementAgg)
          (runAgg (productionBatchAgg products) []
            (batches.filter (fun b => checkDate dateFrom dateTo b.date))) ms1)
          (productionKey m.date m.productId) = false := by
        show hasKey (runAgg productionMovementAgg _ ms1) _ = false
        rw [production_hasKey_movements, production_hasKey_seeded]
        rw [List.any_eq_false]
        intro b hb
        intro hcontra
        have hkb : (productionBatchAgg products).keyOf b
            = some (productionKey m.date m.productId) := of_decide_eq_true hcontra
        have hkb' : some (productionKey b.date b.productId)
            = some (productionKey m.date m.productId) := hkb
        exact hm b hb (Option.some_inj.mp hkb')
      exact applyItem_absent_skip productionMovementAgg _ hmk hnk rfl
  · intro movements r hr
    rcases (mem_calculateProductionSummary batches movements products dateFrom dateTo r).mp hr
      with ⟨-, e, he, rfl⟩
    have hid : e.2.id = e.1 := production_run_id products _ movements e he
    have hpres := hasKey_of_mem he rfl
    rw [production_hasKey_movements, production_hasKey_seeded] at hpres
    rcases List.any_eq_true.mp hpres with ⟨b, hb, hpred⟩
    have hkb : (productionBatchAgg products).keyOf b = some e.1 := of_decide_eq_true hpred
    have hkb' : some (productionKey b.date b.productId) = some e.1 := hkb
    refine ⟨b, hb, ?_⟩
    have hfid : (finalizeProductionRow e.2).id = e.2.id := rfl
    rw [hfid, hid]
    exact Option.some_inj.mp hkb'

/-- Witness for C5: a sale on day 7 with production only on day 0 is
silently dropped — the outputs with and without it coincide. -/
theorem calculateProductionSummary_production_gated_witness :
    calculateProductionSummary [exPSBatch] ([] ++ exOrphanMovement :: []) [exProduct] none none
      = calculateProductionSummary [exPSBatch] ([] ++ []) [exProduct] none none := by
  exact (calculateProductionSummary_production_gated [exPSBatch] [exProduct] none none).1
    [] [] exOrphanMovement (by decide)

/-! ### Stock balance: claim theorem -/

/-- `proj_runAgg_mem` specialised to a run from the empty map. -/
theorem proj_runAgg_nil_mem [DecidableEq κ] (A : Agg ι κ σ) (proj : σ → ℚ) (c : ι → ℚ)
    (hupd : ∀ i x, proj (A.upd i x) = proj x + c i)
    (hinit : ∀ i v, A.init i = some v → proj v = 0)
    (items : List ι)
    (huni : ∀ i ∈ items, ∀ j ∈ items, ∀ k, A.keyOf i = some k → A.keyOf j = some k →
      (A.init i).isSome = (A.init j).isSome) :
    ∀ e ∈ runAgg A [] items, proj e.2 = keySum A c e.1 items := by
  intro e he
  rcases proj_runAgg_mem A proj c hupd hinit items huni [] e he with ⟨e₀, he₀, -, -⟩ | ⟨-, h⟩
  · cases he₀
  · exact h

theorem stockKeyOf_some {reportDate : Int} {selectedStoreId : String}
    {m : Movement} {k : String} (h : stockKeyOf reportDate selectedStoreId m = some k) :
    ∃ sid, m.storeId = some sid ∧ k = sid ++ "-" ++ m.productId := by
  unfold stockKeyOf at h
  split at h
  · exact absurd h (by simp)
  · split at h
    · exact absurd h (by simp)
    · cases hsid : m.storeId with
      | none =>
        simp only [hsid] at h
        exact absurd h (by simp)
      | some sid =>
        simp only [hsid] at h
        split at h
        · exact absurd h (by simp)
        · exact ⟨sid, rfl, (Option.some_inj.mp h).symm⟩

theorem stockAgg_init_isSome_eq (stores : List Store) (products : List Product)
    (reportDate : Int) (selectedStoreId : String) {m : Movement} {sid : String}
    (hsid : m.storeId = some sid) :
    ((stockAgg stores products reportDate selectedStoreId).init m).isSome
      = ((stores.find? (fun s => s.id = sid)).isSome &&
          (products.find? (fun p => p.id = m.productId)).isSome) := by
  unfold stockAgg
  dsimp only
  simp only [hsid]
  cases hf1 : stores.find? (fun s => s.id = sid) with
  | none =>
    cases hf2 : products.find? (fun p => p.id = m.productId) <;> simp
  | some store =>
    cases hf2 : products.find? (fun p => p.id = m.productId) <;> simp

theorem stockAgg_init_spec (stores : List Store) (products : List Product)
    (reportDate : Int) (selectedStoreId : String) {m : Movement} {v : StockRow}
    (hv : (stockAgg stores products reportDate selectedStoreId).init m = some v) :
    v.totalIn = 0 ∧ v.totalOut = 0 ∧ v.balance = 0 ∧
    (∃ s ∈ stores, s.id = v.storeId ∧ s.name = v.storeName) ∧
    (∃ p ∈ products, p.id = v.productId ∧ p.name = v.productName) ∧
    m.storeId = some v.storeId ∧ m.productId = v.productId ∧
    v.id = v.storeId ++ "-" ++ v.productId := by
  have hv' : (match m.storeId with
    | none => none
    | some sid =>
      match stores.find? (fun s => s.id = sid),
          products.find? (fun p => p.id = m.productId) with
      | some store, some product =>
        some { id := sid ++ "-" ++ m.productId, storeId := sid
               storeName := store.name, productId := m.productId
               productName := product.name, totalIn := 0, totalOut := 0, balance := 0 }
      | _, _ => none) = some v := hv
  cases hsid : m.storeId with
  | none =>
    simp only [hsid] at hv'
    exact absurd hv' (by simp)
  | some sid =>
    simp only [hsid] at hv'
    cases hf1 : stores.find? (fun s => s.id = sid) with
    | none =>
      simp only [hf1] at hv'
      exact absurd hv' (by simp)
    | some store =>
      cases hf2 : products.find? (fun p => p.id = m.productId) with
      | none =>
        simp only [hf1, hf2] at hv'
        exact absurd hv' (by simp)
      | some product =>
        simp only [hf1, hf2] at hv'
        obtain rfl := Option.some_inj.mp hv'
        refine ⟨rfl, rfl, rfl, ?_, ?_, rfl, rfl, rfl⟩
        · refine ⟨store, List.mem_of_find?_eq_some hf1, ?_, rfl⟩
          have hps := List.find?_some hf1
          exact of_decide_eq_true hps
        · refine ⟨product, List.mem_of_find?_eq_some hf2, ?_, rfl⟩
          have hps := List.find?_some hf2
          exact of_decide_eq_true hps

theorem stockAgg_upd_totalIn (stores : List Store) (products : List Product)
    (reportDate : Int) (selectedStoreId : String) (m : Movement) (r : StockRow) :
    ((stockAgg stores products reportDate selectedStoreId).upd m r).totalIn
      = r.totalIn + stockInContribution m := by
  unfold stockAgg stockInContribution
  dsimp only
  by_cases h : getMovementSign m.operationType > 0
  · rw [if_pos h, if_pos h]
  · rw [if_neg h, if_neg h]
    ring

theorem stockAgg_upd_totalOut (stores : List Store) (products : List Product)
    (reportDate : Int) (selectedStoreId : String) (m : Movement) (r : StockRow) :
    ((stockAgg stores products reportDate selectedStoreId).upd m r).totalOut
      = r.totalOut + stockOutContribution m := by
  unfold stockAgg stockOutContribution
  dsimp only
  by_cases h : getMovementSign m.operationType > 0
  · rw [if_pos h, if_pos h]
    ring
  · rw [if_neg h, if_neg h]

theorem stockAgg_upd_balance (stores : List Store) (products : List Product)
    (reportDate : Int) (selectedStoreId : String) (m : Movement) (r : StockRow) :
    ((stockAgg stores products reportDate selectedStoreId).upd m r).balance
      = r.balance + stockSignedContribution m := by
  unfold stockAgg stockSignedContribution
  dsimp only
  by_cases h : getMovementSign m.operationType > 0
  · rw [if_pos h]
  · rw [if_neg h]

theorem stockAgg_upd_keeps (stores : List Store) (products : List Product)
    (reportDate : Int) (selectedStoreId : String) (m : Movement) (r : StockRow) :
    ((stockAgg stores products reportDate selectedStoreId).upd m r).id = r.id ∧
    ((stockAgg stores products reportDate selectedStoreId).upd m r).storeId = r.storeId ∧
    ((stockAgg stores products reportDate selectedStoreId).upd m r).storeName = r.storeName ∧
    ((stockAgg stores products reportDate selectedStoreId).upd m r).productId = r.productId ∧
    ((stockAgg stores products reportDate selectedStoreId).upd m r).productName = r.productName := by
  unfold stockAgg
  dsimp only
  by_cases h : getMovementSign m.operationType > 0
  · rw [if_pos h]
    exact ⟨rfl, rfl, rfl, rfl, rfl⟩
  · rw [if_neg h]
    exact ⟨rfl, rfl, rfl, rfl, rfl⟩

theorem mem_calculateStockData (movements : List Movement) (stores : List Store)
    (products : List Product) (reportDate : Int) (selectedStoreId : String)
    (r : StockRow) :
    r ∈ calculateStockData movements stores products reportDate selectedStoreId ↔
    (movements.isEmpty = false ∧
      ∃ e ∈ runAgg (stockAgg stores products reportDate selectedStoreId) [] movements,
        e.2 = r) := by
  show r ∈ (if movements.isEmpty then ([] : List StockRow)
    else
      ((runAgg (stockAgg stores products reportDate selectedStoreId) [] movements).map
        Prod.snd).mergeSort stockRowLE) ↔ _
  by_cases hE : movements.isEmpty = true
  · rw [if_pos hE]
    simp [hE]
  · rw [if_neg hE]
    rw [List.mem_mergeSort, List.mem_map]
    constructor
    · rintro ⟨e, he, rfl⟩
      exact ⟨Bool.not_eq_true _ ▸ hE, e, he, rfl⟩
    · rintro ⟨-, e, he, rfl⟩
      exact ⟨e, he, rfl⟩

/-- **C6.**  `calculateStockData` uses the fixed sign table (+1 for
load/return/transfer_in, -1 for sale/bonus/exchange/writeoff/transfer_out,
everything else excluded), and — under the sanity assumption that the
composite `` `${storeId}-${productId}` `` key determines the pair — every
output row's `totalIn` is the sum of the quantities of exactly the matching
positive-sign movements of its key, `totalOut` the sum over the
negative-sign ones, `balance` the signed sum, and the row's store and
product ids resolve in the reference lists (movements after the cutoff,
without a `storeId`, with an unknown operation type, or with an unresolved
store/product contribute to no row, as the sums are over the key-matching
movements only). -/
theorem calculateStockData_sign_table_and_sums (movements : List Movement)
    (stores : List Store) (products : List Product) (reportDate : Int)
    (selectedStoreId : String)
    (hinj : ∀ m ∈ movements, ∀ m' ∈ movements,
      m.storeId.isSome = true → m'.storeId.isSome = true →
      m.storeId.getD "" ++ "-" ++ m.productId = m'.storeId.getD "" ++ "-" ++ m'.productId →
      m.storeId = m'.storeId ∧ m.productId = m'.productId) :
    (getMovementSign "load" = 1 ∧ getMovementSign "return" = 1 ∧
      getMovementSign "transfer_in" = 1 ∧ getMovementSign "sale" = -1 ∧
      getMovementSign "bonus" = -1 ∧ getMovementSign "exchange" = -1 ∧
      getMovementSign "writeoff" = -1 ∧ getMovementSign "transfer_out" = -1) ∧
    ∀ r ∈ calculateStockData movements stores products reportDate selectedStoreId,
      r.totalIn = keySum (stockAgg stores products reportDate selectedStoreId)
        stockInContribution r.id movements ∧
      r.totalOut = keySum (stockAgg stores products reportDate selectedStoreId)
        stockOutContribution r.id movements ∧
      r.balance = keySum (stockAgg stores products reportDate selectedStoreId)
        stockSignedContribution r.id movements ∧
      (∃ s ∈ stores, s.id = r.storeId ∧ s.name = r.storeName) ∧
      (∃ p ∈ products, p.id = r.productId ∧ p.name = r.productName) := by
  constructor
  · refine ⟨by decide, by decide, by decide, by decide, by decide, by decide, by decide, by decide⟩
  intro r hr
  rcases (mem_calculateStockData movements stores products reportDate selectedStoreId r).mp hr
    with ⟨-, e, he, rfl⟩
  have huni : ∀ i ∈ movements, ∀ j ∈ movements, ∀ k,
      (stockAgg stores products reportDate selectedStoreId).keyOf i = some k →
      (stockAgg stores products reportDate selectedStoreId).keyOf j = some k →
      ((stockAgg stores products reportDate selectedStoreId).init i).isSome
        = ((stockAgg stores products reportDate selectedStoreId).init j).isSome := by
    intro i hi j hj k hik hjk
    rcases stockKeyOf_some hik with ⟨sid, hsidI, rfl⟩
    rcases stockKeyOf_some hjk with ⟨sid', hsidJ, hkeq⟩
    have hgi : i.storeId.getD "" = sid := by rw [hsidI]; rfl
    have hgj : j.storeId.getD "" = sid' := by rw [hsidJ]; rfl
    rcases hinj i hi j hj (by rw [hsidI]; rfl) (by rw [hsidJ]; rfl)
      (by rw [hgi, hgj]; exact hkeq) with ⟨hst, hpd⟩
    rw [stockAgg_init_isSome_eq stores products reportDate selectedStoreId hsidI,
      stockAgg_init_isSome_eq stores products reportDate selectedStoreId hsidJ]
    have hss : sid = sid' := by
      rw [hsidI, hsidJ] at hst
      exact Option.some_inj.mp hst
    rw [hss, hpd]
  have hid : e.2.id = e.1 := by
    refine inv2_runAgg _ (fun q : String × StockRow => q.2.id = q.1) ?_ ?_ movements []
      (by intro e' he'; cases he') e he
    · intro i k x hx
      show ((stockAgg stores products reportDate selectedStoreId).upd i x).id = k
      rw [(stockAgg_upd_keeps stores products reportDate selectedStoreId i x).1]
      exact hx
    · intro i k v hk hv
      rcases stockKeyOf_some hk with ⟨sid, hsid, rfl⟩
      rcases stockAgg_init_spec stores products reportDate selectedStoreId hv
        with ⟨-, -, -, -, -, hst, hpd, hvid⟩
      show ((stockAgg stores products reportDate selectedStoreId).upd i v).id = _
      rw [(stockAgg_upd_keeps stores products reportDate selectedStoreId i v).1, hvid]
      have hsid' : sid = v.storeId := by
        rw [hsid] at hst
        exact Option.some_inj.mp hst
      rw [hsid', hpd]
  rw [hid]
  refine ⟨?_, ?_, ?_, ?_⟩
  · exact proj_runAgg_nil_mem _ (fun row => row.totalIn) stockInContribution
      (fun i x => stockAgg_upd_totalIn stores products reportDate selectedStoreId i x)
      (fun i v hv => (stockAgg_init_spec stores products reportDate selectedStoreId hv).1)
      movements huni e he
  · exact proj_runAgg_nil_mem _ (fun row => row.totalOut) stockOutContribution
      (fun i x => stockAgg_upd_totalOut stores products reportDate selectedStoreId i x)
      (fun i v hv => (stockAgg_init_spec stores products reportDate selectedStoreId hv).2.1)
      movements huni e he
  · exact proj_runAgg_nil_mem _ (fun row => row.balance) stockSignedContribution
      (fun i x => stockAgg_upd_balance stores products reportDate selectedStoreId i x)
      (fun i v hv => (stockAgg_init_spec stores products reportDate selectedStoreId hv).2.2.1)
      movements huni e he
  · refine inv_runAgg _ (fun row : StockRow =>
        (∃ s ∈ stores, s.id = row.storeId ∧ s.name = row.storeName) ∧
        (∃ p ∈ products, p.id = row.productId ∧ p.name = row.productName))
      ?_ ?_ movements [] (by intro e' he'; cases he') e he
    · intro i x hx
      dsimp only at hx ⊢
      rcases stockAgg_upd_keeps stores products reportDate selectedStoreId i x
        with ⟨-, h1, h2, h3, h4⟩
      rw [h1, h2, h3, h4]
      exact hx
    · intro i v hv
      rcases stockAgg_init_spec stores products reportDate selectedStoreId hv
        with ⟨-, -, -, hs, hp, -⟩
      exact ⟨hs, hp⟩

/-- Witness for C6: a load of 50 then a sale of 20 yields the row with
totalIn 50, totalOut 20, balance 30, and the sums hold of it. -/
theorem calculateStockData_sign_table_and_sums_witness :
    exStockRow ∈ calculateStockData [exLoad, exSale20] [exStore] [exProduct] 0 "all" ∧
    (exStockRow.totalIn = keySum (stockAgg [exStore] [exProduct] 0 "all")
        stockInContribution exStockRow.id [exLoad, exSale20] ∧
      exStockRow.totalOut = keySum (stockAgg [exStore] [exProduct] 0 "all")
        stockOutContribution exStockRow.id [exLoad, exSale20] ∧
      exStockRow.balance = keySum (stockAgg [exStore] [exProduct] 0 "all")
        stockSignedContribution exStockRow.id [exLoad, exSale20] ∧
      (∃ s ∈ [exStore], s.id = exStockRow.storeId ∧ s.name = exStockRow.storeName) ∧
      (∃ p ∈ [exProduct], p.id = exStockRow.productId ∧ p.name = exStockRow.productName)) := by
  have hm : exStockRow ∈ calculateStockData [exLoad, exSale20] [exStore] [exProduct] 0 "all" := by
    simp [calculateStockData, runAgg, applyItem, hasKey, stockAgg, stockKeyOf,
      getMovementSign, exLoad, exSale20, exStore, exProduct, exStockRow,
      List.find?, List.foldl]
    norm_num
  exact ⟨hm, ((calculateStockData_sign_table_and_sums [exLoad, exSale20] [exStore]
    [exProduct] 0 "all" (by decide)).2) exStockRow hm⟩

/-! ### District deletion: claim theorems -/

/-- **C7 counterexample.**  Deleting district "d1" through the DELETE
handler leaves the store that belonged to it still carrying
`districtId = "d1"` — the handler does not unset it. -/
theorem districtsDelete_keeps_store_district :
    ∃ s ∈ (districtsDelete exRefDb "d1").stores, s.districtId = some "d1" := by
  decide

/-- **C7 (amended).**  `DELETE /api/districts/{id}` removes only the district
row and never modifies the stores table: the stores come back unchanged from
the database.  The unset-`districtId` cascade is client-side: the districts
page's `deleteDistrict`, after a successful response, nulls `districtId` in
its local store state for every store of the deleted district (leaving the
other stores and every store's other fields unchanged). -/
theorem districtsDelete_effect (db : RefDb) (id : String) (stores : List Store) :
    (districtsDelete db id).stores = db.stores ∧
    (∀ d ∈ (districtsDelete db id).districts, ¬ d.id = id) ∧
    (districtsDelete db id).districts = db.districts.filter (fun d => ¬ d.id = id) ∧
    (∀ s ∈ unassignDeletedDistrict stores id, ¬ s.districtId = some id) ∧
    (unassignDeletedDistrict stores id).map (fun s => (s.id, s.name)) =
      stores.map (fun s => (s.id, s.name)) ∧
    (∀ s ∈ stores, ¬ s.districtId = some id → s ∈ unassignDeletedDistrict stores id) := by
  refine ⟨rfl, ?_, rfl, ?_, ?_, ?_⟩
  · intro d hd
    have hd' := List.mem_filter.mp hd
    simpa using hd'.2
  · intro s hs
    rcases List.mem_map.mp hs with ⟨s₀, hs₀, rfl⟩
    by_cases h : s₀.districtId = some id
    · rw [if_pos h]
      simp
    · rw [if_neg h]
      exact h
  · unfold unassignDeletedDistrict
    rw [List.map_map]
    congr 1
    funext s
    show ((if s.districtId = some id then { s with districtId := none } else s).id,
      (if s.districtId = some id then { s with districtId := none } else s).name) = _
    split <;> rfl
  · intro s hs h
    unfold unassignDeletedDistrict
    refine List.mem_map.mpr ⟨s, hs, ?_⟩
    rw [if_neg h]

/-- Witness for the amended C7 at the example database: the server keeps the
store row as is, and the client-side unassignment nulls its `districtId`. -/
theorem districtsDelete_effect_witness :
    (districtsDelete exRefDb "d1").stores = exRefDb.stores ∧
    (∀ d ∈ (districtsDelete exRefDb "d1").districts, ¬ d.id = "d1") ∧
    (districtsDelete exRefDb "d1").districts
      = exRefDb.districts.filter (fun d => ¬ d.id = "d1") ∧
    (∀ s ∈ unassignDeletedDistrict exRefDb.stores "d1", ¬ s.districtId = some "d1") ∧
    (unassignDeletedDistrict exRefDb.stores "d1").map (fun s => (s.id, s.name)) =
      exRefDb.stores.map (fun s => (s.id, s.name)) ∧
    (∀ s ∈ exRefDb.stores, ¬ s.districtId = some "d1" →
      s ∈ unassignDeletedDistrict exRefDb.stores "d1") :=
  districtsDelete_effect exRefDb "d1" exRefDb.stores

/-! ### Demand forecast trend factor: claim theorem -/

/-- **C8.**  In `calculateSmartForecast`, the trend factor is
`secondHalfAvg / firstHalfAvg` clamped to `[0.7, 1.5]` whenever the first
half of the window had positive average daily sales; it is the flat boost
`1.2` when the first half averaged zero and the second half was positive;
and it is `1` when both halves averaged zero. -/
theorem trendFactor_cases (salesHistory : List ℚ) (horizonDays : ℕ) :
    (0 < averageOf (trendFirstPart salesHistory horizonDays) →
      trendFactor salesHistory horizonDays
        = clampTrend (averageOf (trendLastPart salesHistory horizonDays) /
            averageOf (trendFirstPart salesHistory horizonDays))) ∧
    (averageOf (trendFirstPart salesHistory horizonDays) = 0 →
      0 < averageOf (trendLastPart salesHistory horizonDays) →
      trendFactor salesHistory horizonDays = 1.2) ∧
    (averageOf (trendFirstPart salesHistory horizonDays) = 0 →
      averageOf (trendLastPart salesHistory horizonDays) = 0 →
      trendFactor salesHistory horizonDays = 1) := by
  refine ⟨?_, ?_, ?_⟩
  · intro h
    simp only [trendFactor]
    rw [if_pos h]
  · intro h1 h2
    simp only [trendFactor]
    rw [if_neg (by rw [h1]; exact lt_irrefl 0), if_pos h2]
    norm_num [clampTrend]
  · intro h1 h2
    simp only [trendFactor]
    rw [if_neg (by rw [h1]; exact lt_irrefl 0), if_neg (by rw [h2]; exact lt_irrefl 0)]
    norm_num [clampTrend]

/-- Witness for C8: with window `[0, 0, 4, 4]` over 4 days, the first half
averages 0 and the second half averages 4, so the factor is the flat 1.2. -/
theorem trendFactor_cases_witness :
    averageOf (trendFirstPart [0, 0, 4, 4] 4) = 0 ∧
    0 < averageOf (trendLastPart [0, 0, 4, 4] 4) ∧
    trendFactor [0, 0, 4, 4] 4 = 1.2 := by
  have h1 : averageOf (trendFirstPart [0, 0, 4, 4] 4) = 0 := by
    norm_num [averageOf, trendFirstPart, trendHalf, List.take]
  have h2 : 0 < averageOf (trendLastPart [0, 0, 4, 4] 4) := by
    norm_num [averageOf, trendLastPart, trendHalf, List.drop]
  exact ⟨h1, h2, (trendFactor_cases [0, 0, 4, 4] 4).2.1 h1 h2⟩

/-! ### Anomaly detection: claim theorem -/

theorem mem_ite_singleton {α : Type} {c : Prop} [Decidable c] {x a : α}
    (h : a ∈ (if c then [x] else [])) : a = x ∧ c := by
  split at h
  · exact ⟨List.mem_singleton.mp h, by assumption⟩
  · cases h

theorem addAlerts_eq_some {stores : List Store} {k : String} {st : StoreStats}
    {store : Store} (hf : stores.find? (fun s => s.id = k) = some store) :
    addAlerts stores k st =
      if st.sales = 0 then []
      else
        (if st.returns / st.sales * 100 > 10 then [mkAlert k store .returns st] else []) ++
        (if st.bonuses / st.sales * 100 > 5 then [mkAlert k store .bonuses st] else []) ++
        (if st.exchanges / st.sales * 100 > 10 then [mkAlert k store .exchanges st] else []) := by
  unfold addAlerts
  rw [hf]

theorem addAlerts_eq_none {stores : List Store} {k : String} {st : StoreStats}
    (hf : stores.find? (fun s => s.id = k) = none) :
    addAlerts stores k st = [] := by
  unfold addAlerts
  rw [hf]

theorem addAlerts_elim {stores : List Store} {k : String} {st : StoreStats}
    {a : StoreAlert} (h : a ∈ addAlerts stores k st) :
    ∃ store', stores.find? (fun s => s.id = k) = some store' ∧ ¬ st.sales = 0 ∧
      ∃ t, a = mkAlert k store' t st ∧
        alertCount t st / st.sales * 100 > alertThreshold t := by
  cases hf : stores.find? (fun s => s.id = k) with
  | none => rw [addAlerts_eq_none hf] at h; cases h
  | some store' =>
    rw [addAlerts_eq_some hf] at h
    by_cases hs : st.sales = 0
    · rw [if_pos hs] at h
      cases h
    · rw [if_neg hs] at h
      refine ⟨store', rfl, hs, ?_⟩
      rcases List.mem_append.mp h with h' | h'
      · rcases List.mem_append.mp h' with h'' | h''
        · rcases mem_ite_singleton h'' with ⟨rfl, hc⟩
          exact ⟨.returns, rfl, hc⟩
        · rcases mem_ite_singleton h'' with ⟨rfl, hc⟩
          exact ⟨.bonuses, rfl, hc⟩
      · rcases mem_ite_singleton h' with ⟨rfl, hc⟩
        exact ⟨.exchanges, rfl, hc⟩

theorem addAlerts_intro {stores : List Store} {k : String} {st : StoreStats}
    {store : Store} (hfind : stores.find? (fun s => s.id = k) = some store)
    (hs : ¬ st.sales = 0) (t : AlertType)
    (hcond : alertCount t st / st.sales * 100 > alertThreshold t) :
    mkAlert k store t st ∈ addAlerts stores k st := by
  rw [addAlerts_eq_some hfind, if_neg hs]
  cases t with
  | returns =>
    have hc : st.returns / st.sales * 100 > 10 := hcond
    exact List.mem_append.mpr (Or.inl (List.mem_append.mpr (Or.inl (by
      rw [if_pos hc]; exact List.mem_singleton.mpr rfl))))
  | bonuses =>
    have hc : st.bonuses / st.sales * 100 > 5 := hcond
    exact List.mem_append.mpr (Or.inl (List.mem_append.mpr (Or.inr (by
      rw [if_pos hc]; exact List.mem_singleton.mpr rfl))))
  | exchanges =>
    have hc : st.exchanges / st.sales * 100 > 10 := hcond
    exact List.mem_append.mpr (Or.inr (by
      rw [if_pos hc]; exact List.mem_singleton.mpr rfl))

/-- Each `byStore` entry tallies exactly its store's movements. -/
theorem anomaly_entry_stats (movements : List Movement) :
    ∀ e ∈ runAgg anomalyStatsAgg [] movements,
      e.2.sales = keySum anomalyStatsAgg (qtyIf "sale") e.1 movements ∧
      e.2.returns = keySum anomalyStatsAgg (qtyIf "return") e.1 movements ∧
      e.2.bonuses = keySum anomalyStatsAgg (qtyIf "bonus") e.1 movements ∧
      e.2.exchanges = keySum anomalyStatsAgg (qtyIf "exchange") e.1 movements := by
  intro e he
  refine ⟨?_, ?_, ?_, ?_⟩
  · exact proj_runAgg_nil anomalyStatsAgg (fun st => st.sales) (qtyIf "sale")
      (fun i x => rfl) (fun i v hv => by rcases Option.some_inj.mp hv with rfl; rfl)
      (fun i j k _ _ => rfl) movements e he
  · exact proj_runAgg_nil anomalyStatsAgg (fun st => st.returns) (qtyIf "return")
      (fun i x => rfl) (fun i v hv => by rcases Option.some_inj.mp hv with rfl; rfl)
      (fun i j k _ _ => rfl) movements e he
  · exact proj_runAgg_nil anomalyStatsAgg (fun st => st.bonuses) (qtyIf "bonus")
      (fun i x => rfl) (fun i v hv => by rcases Option.some_inj.mp hv with rfl; rfl)
      (fun i j k _ _ => rfl) movements e he
  · exact proj_runAgg_nil anomalyStatsAgg (fun st => st.exchanges) (qtyIf "exchange")
      (fun i x => rfl) (fun i v hv => by rcases Option.some_inj.mp hv with rfl; rfl)
      (fun i j k _ _ => rfl) movements e he

theorem anomaly_entry_count (movements : List Movement)
    {e : String × StoreStats} (he : e ∈ runAgg anomalyStatsAgg [] movements)
    (t : AlertType) :
    alertCount t e.2 = anomalyCount movements e.1 t := by
  rcases anomaly_entry_stats movements e he with ⟨-, hr, hb, hx⟩
  cases t with
  | returns => exact hr
  | bonuses => exact hb
  | exchanges => exact hx

/-- **C9.**  For a store that resolves in the reference list and has positive
tallied sales, `detectAnomalies` emits an alert of a given type **iff** that
type's tally satisfies `count / sales * 100 > threshold` (returns 10,
bonuses 5, exchanges 10, strictly), and every emitted alert of that store and
type reports `Math.round(count / sales * 100)` as its percent. -/
theorem detectAnomalies_threshold_iff (movements : List Movement)
    (stores : List Store) (sid : String) (store : Store) (t : AlertType)
    (hfind : stores.find? (fun s => s.id = sid) = some store)
    (hs : 0 < anomalySales movements sid) :
    ((∃ a ∈ detectAnomalies movements stores, a.storeId = sid ∧ a.type = t) ↔
      anomalyCount movements sid t / anomalySales movements sid * 100 > alertThreshold t) ∧
    ∀ a ∈ detectAnomalies movements stores, a.storeId = sid → a.type = t →
      a.percent = round (anomalyCount movements sid t / anomalySales movements sid * 100) := by
  have hsales : ∀ e ∈ runAgg anomalyStatsAgg [] movements, e.1 = sid →
      e.2.sales = anomalySales movements sid := by
    intro e he hek
    rw [(anomaly_entry_stats movements e he).1, hek]
    rfl
  constructor
  · constructor
    · rintro ⟨a, ha, hasid, hat⟩
      rcases List.mem_flatMap.mp ha with ⟨e, he, hae⟩
      rcases addAlerts_elim hae with ⟨store', -, hs', t', rfl, hcond⟩
      have hek : e.1 = sid := hasid
      have ht' : t' = t := hat
      rw [ht'] at hcond
      rw [anomaly_entry_count movements he t, hek,
        hsales e he hek] at hcond
      exact hcond
    · intro hcond
      have hsne : anomalySales movements sid ≠ 0 := ne_of_gt hs
      have hexm : ∃ m ∈ movements, anomalyStatsAgg.keyOf m = some sid := by
        by_contra hnone
        push_neg at hnone
        exact hsne (keySum_eq_zero_of_none anomalyStatsAgg (qtyIf "sale") sid movements hnone)
      rcases hexm with ⟨m, hm, hkm⟩
      have hpres : hasKey (runAgg anomalyStatsAgg [] movements) sid = true := by
        rw [hasKey_runAgg]
        refine Bool.or_eq_true_iff.mpr (Or.inr ?_)
        exact List.any_eq_true.mpr ⟨m, hm, by simp [anomalyStatsAgg]; exact hkm⟩
      rcases List.any_eq_true.mp hpres with ⟨e, he, hek'⟩
      have hek : e.1 = sid := of_decide_eq_true hek'
      have hsst : e.2.sales = anomalySales movements sid := hsales e he hek
      have hs' : ¬ e.2.sales = 0 := by rw [hsst]; exact hsne
      have hcond' : alertCount t e.2 / e.2.sales * 100 > alertThreshold t := by
        rw [anomaly_entry_count movements he t, hek, hsst]
        exact hcond
      refine ⟨mkAlert e.1 store t e.2, ?_, ?_, rfl⟩
      · exact List.mem_flatMap.mpr ⟨e, he,
          addAlerts_intro (by rw [hek]; exact hfind) hs' t hcond'⟩
      · exact hek
  · intro a ha hasid hat
    rcases List.mem_flatMap.mp ha with ⟨e, he, hae⟩
    rcases addAlerts_elim hae with ⟨store', -, -, t', rfl, -⟩
    have hek : e.1 = sid := hasid
    have ht' : t' = t := hat
    show round (alertCount t' e.2 / e.2.sales * 100) = _
    rw [ht', anomaly_entry_count movements he t, hek, hsales e he hek]

/-- Witness for C9, the spec's §8 boundary example: sales 100 with returns 11
is flagged (11% > 10%), while sales 100 with returns 10 is not (the
comparison is strict). -/
theorem detectAnomalies_threshold_iff_witness :
    (∃ a ∈ detectAnomalies [exAnomSale, exReturn11] [exStore],
      a.storeId = "s1" ∧ a.type = AlertType.returns) ∧
    ¬ (∃ a ∈ detectAnomalies [exAnomSale, exReturn10] [exStore],
      a.storeId = "s1" ∧ a.type = AlertType.returns) := by
  have hfind : List.find? (fun s => s.id = "s1") [exStore] = some exStore := by decide
  have hsA : anomalySales [exAnomSale, exReturn11] "s1" = 100 := by
    simp [anomalySales, keySum, anomalyStatsAgg, qtyIf, exAnomSale, exReturn11,
      List.filter]
  have hsB : anomalySales [exAnomSale, exReturn10] "s1" = 100 := by
    simp [anomalySales, keySum, anomalyStatsAgg, qtyIf, exAnomSale, exReturn10,
      List.filter]
  have hcA : anomalyCount [exAnomSale, exReturn11] "s1" AlertType.returns = 11 := by
    simp [anomalyCount, keySum, anomalyStatsAgg, anomalyTypeOp, qtyIf,
      exAnomSale, exReturn11, List.filter]
  have hcB : anomalyCount [exAnomSale, exReturn10] "s1" AlertType.returns = 10 := by
    simp [anomalyCount, keySum, anomalyStatsAgg, anomalyTypeOp, qtyIf,
      exAnomSale, exReturn10, List.filter]
  have hs1 : 0 < anomalySales [exAnomSale, exReturn11] "s1" := by
    rw [hsA]; norm_num
  have hs2 : 0 < anomalySales [exAnomSale, exReturn10] "s1" := by
    rw [hsB]; norm_num
  constructor
  · refine ((detectAnomalies_threshold_iff [exAnomSale, exReturn11] [exStore] "s1" exStore
      AlertType.returns hfind hs1).1).mpr ?_
    rw [hcA, hsA]
    norm_num [alertThreshold]
  · intro hex
    have h := ((detectAnomalies_threshold_iff [exAnomSale, exReturn10] [exStore] "s1" exStore
      AlertType.returns hfind hs2).1).mp hex
    rw [hcB, hsB] at h
    norm_num [alertThreshold] at h

-- ===== END OF THEOREMS =====

end Corndog
